import Mathlib

/-!
Verification development for the xlsxturbo repository (Rust sources under
src/: parse.rs, types.rs, convert.rs, features.rs, lib.rs, main.rs).

The Rust code is shallowly embedded: pure Rust functions become Lean
functions on `List Char` / `String`; machine integers are `Nat`/`Int` with
explicit wrap-around (`% 2^w`, matching Rust release-build semantics) where
overflow matters; fallible code returns `Except String`; the worksheet sink
(rust_xlsxwriter, an external collaborator) is modelled as a trace of write
operations.  Floating-point values are modelled by the exact rational value
of the accepted decimal literal, with the overflow-to-infinity threshold of
IEEE-754 binary64 ((2^54 - 1) * 2^970, the round-to-nearest boundary)
treated exactly; date/datetime serials are exact `Int`/`Rat` day counts.
The date parsing model follows the documented behaviour of
chrono::NaiveDate::parse_from_str for the six fixed patterns used by the
repository (greedy 1-2 digit day/month fields, 1-4 digit unsigned year
fields, literal separators, full-input consumption, real calendar
validity).
-/

deriving instance DecidableEq for Except

/-! ### Character and string utilities (models of Rust std behaviour) -/

/-- Model of Rust `char::is_whitespace` restricted to the ASCII fragment
(space and the control whitespace U+0009..U+000D); all inputs appearing in
the claims are ASCII. -/
def rustIsWhitespace (c : Char) : Bool :=
  c = ' ' || (9 ≤ c.toNat && c.toNat ≤ 13)

/-- Model of Rust `str::trim` on a character list: drop whitespace at both
ends. -/
def trimChars (l : List Char) : List Char :=
  ((l.dropWhile rustIsWhitespace).reverse.dropWhile rustIsWhitespace).reverse

/-- Model of Rust `str::trim`. -/
def rustTrim (s : String) : String :=
  String.mk (trimChars s.data)

/-- ASCII lower-casing of one character (model of `char::to_ascii_lowercase`). -/
def toLowerAsciiChar (c : Char) : Char :=
  if 65 ≤ c.toNat && c.toNat ≤ 90 then Char.ofNat (c.toNat + 32) else c

/-- ASCII upper-casing of one character; also models `str::to_uppercase`
restricted to ASCII input (the non-ASCII special cases never arise in the
claims). -/
def toUpperAsciiChar (c : Char) : Char :=
  if 97 ≤ c.toNat && c.toNat ≤ 122 then Char.ofNat (c.toNat - 32) else c

/-- Model of Rust `str::eq_ignore_ascii_case`. -/
def eqIgnoreAsciiCase (a b : String) : Bool :=
  a.data.map toLowerAsciiChar = b.data.map toLowerAsciiChar

/-- Model of Rust `str::to_lowercase` restricted to ASCII. -/
def toLowerAscii (s : String) : String :=
  String.mk (s.data.map toLowerAsciiChar)

/-- Does `l` start with the list `p` (model of `str::starts_with`)? -/
def startsWithL : List Char → List Char → Bool
  | _, [] => true
  | [], _ :: _ => false
  | a :: as, b :: bs => a = b && startsWithL as bs

/-- Does `l` end with the list `p` (model of `str::ends_with`)? -/
def endsWithL (l p : List Char) : Bool :=
  startsWithL l.reverse p.reverse

/-- Substring containment (model of Rust `str::contains` with a string
pattern): some tail of `hay` starts with `needle`. -/
def containsL : List Char → List Char → Bool
  | [], needle => needle.isEmpty
  | hay@(_ :: rest), needle => startsWithL hay needle || containsL rest needle

/-- ASCII decimal digit test. -/
def isDigitChar (c : Char) : Bool :=
  48 ≤ c.toNat && c.toNat ≤ 57

/-- Numeric value of an ASCII digit. -/
def digitVal (c : Char) : Nat := c.toNat - 48

/-- The ASCII digit character of `d < 10`. -/
def digitChar (d : Nat) : Char := Char.ofNat (48 + d)

/-- Base-10 value of a digit-character list, most significant first. -/
def natOfDigits (l : List Char) : Nat :=
  l.foldl (fun a c => a * 10 + digitVal c) 0

/-! ### Decimal printing (model of Rust `i64::to_string` / `u32::to_string`) -/

/-- Little-endian base-10 digits of `n`, with explicit fuel (the fuel `n`
itself always suffices); structural recursion keeps kernel reduction
available. -/
def natDigitsAux : Nat → Nat → List Nat
  | 0, _ => []
  | fuel + 1, n => if n = 0 then [] else n % 10 :: natDigitsAux fuel (n / 10)

/-- Little-endian base-10 digits of `n` (empty for 0). -/
def natDigits (n : Nat) : List Nat := natDigitsAux n n

/-- Value of a little-endian digit list (proof-side companion of
`natDigits`). -/
def ofDigitsLE : List Nat → Nat
  | [] => 0
  | d :: ds => d + 10 * ofDigitsLE ds

/-- Decimal string of a natural number. -/
def natToDecString (n : Nat) : String :=
  if n = 0 then "0" else String.mk ((natDigits n).reverse.map digitChar)

/-- Decimal string of an integer (model of Rust `i64::to_string`). -/
def intToDecString (v : Int) : String :=
  if v < 0 then "-" ++ natToDecString v.natAbs else natToDecString v.natAbs

/-! ### Integer parsing (models of Rust `str::parse::<i64>` / `<u32>`) -/

/-- Model of Rust `str::parse::<i64>` on a character list: optional sign,
one or more ASCII digits, value within the i64 range. -/
def parseI64Chars : List Char → Option Int
  | [] => none
  | c :: rest =>
    let sign : Int := if c = '-' then -1 else 1
    let digits : List Char := if c = '+' || c = '-' then rest else c :: rest
    if digits ≠ [] && digits.all isDigitChar then
      let v : Int := sign * (natOfDigits digits : Int)
      if -(2 : Int) ^ 63 ≤ v ∧ v ≤ 2 ^ 63 - 1 then some v else none
    else none

/-- Model of Rust `str::parse::<i64>`. -/
def parseI64 (s : String) : Option Int := parseI64Chars s.data

/-- Model of Rust `str::parse::<u32>` on a character list: optional `+`
sign, one or more ASCII digits, value below 2^32. -/
def parseU32Chars : List Char → Option Nat
  | [] => none
  | c :: rest =>
    let digits : List Char := if c = '+' then rest else c :: rest
    if c = '-' then none
    else if digits ≠ [] && digits.all isDigitChar then
      let v := natOfDigits digits
      if v ≤ 2 ^ 32 - 1 then some v else none
    else none

/-- Model of Rust `str::parse::<u32>`. -/
def parseU32 (s : String) : Option Nat := parseU32Chars s.data

/-! ### Floating-point literal parsing (model of Rust `str::parse::<f64>`)

A parsed f64 is modelled by the class of the accepted literal: NaN, signed
infinity, or a finite literal carrying its exact rational value.  Whether a
finite literal overflows to infinity under IEEE-754 binary64
round-to-nearest-even is decided exactly against the threshold
(2^54 - 1) * 2^970. -/

inductive FloatLit where
  | nan : FloatLit
  | inf : Bool → FloatLit
  | finite : Rat → FloatLit
deriving DecidableEq

/-- Split a character list at the first `e`/`E` (exponent marker). -/
def splitAtExpChar : List Char → List Char × Option (List Char)
  | [] => ([], none)
  | c :: rest =>
    if c = 'e' || c = 'E' then ([], some rest)
    else
      let p := splitAtExpChar rest
      (c :: p.1, p.2)

/-- Split a character list at the first `.`. -/
def splitAtDot : List Char → List Char × Option (List Char)
  | [] => ([], none)
  | c :: rest =>
    if c = '.' then ([], some rest)
    else
      let p := splitAtDot rest
      (c :: p.1, p.2)

/-- Parse the mantissa of a float literal: digits, optionally around a
single dot, with at least one digit in total. -/
def parseMantissa (cs : List Char) : Option Rat :=
  let p := splitAtDot cs
  match p.2 with
  | none =>
    if p.1 ≠ [] && p.1.all isDigitChar then some (natOfDigits p.1 : Rat) else none
  | some fp =>
    if (p.1 ≠ [] || fp ≠ []) && p.1.all isDigitChar && fp.all isDigitChar then
      some ((natOfDigits p.1 : Rat) + (natOfDigits fp : Rat) / (10 : Rat) ^ fp.length)
    else none

/-- Parse the exponent of a float literal: optional sign then one or more
digits. -/
def parseExpPart (cs : List Char) : Option Int :=
  match cs with
  | '+' :: r => if r ≠ [] && r.all isDigitChar then some (natOfDigits r : Int) else none
  | '-' :: r => if r ≠ [] && r.all isDigitChar then some (-(natOfDigits r : Int)) else none
  | r => if r ≠ [] && r.all isDigitChar then some (natOfDigits r : Int) else none

/-- Model of Rust `str::parse::<f64>`: optional sign, then `inf`,
`infinity` or `nan` case-insensitively, or a decimal mantissa with optional
exponent. -/
def parseF64 (s : String) : Option FloatLit :=
  match s.data with
  | [] => none
  | cs =>
    let neg : Bool := startsWithL cs ['-']
    let rest : List Char := if startsWithL cs ['+'] || startsWithL cs ['-'] then cs.drop 1 else cs
    let low := rest.map toLowerAsciiChar
    if low = ['i', 'n', 'f'] || low = ['i', 'n', 'f', 'i', 'n', 'i', 't', 'y'] then
      some (.inf neg)
    else if low = ['n', 'a', 'n'] then some .nan
    else
      let p := splitAtExpChar rest
      match parseMantissa p.1 with
      | none => none
      | some m =>
        match p.2 with
        | none => some (.finite (if neg then -m else m))
        | some ep =>
          match parseExpPart ep with
          | none => none
          | some e => some (.finite ((if neg then -m else m) * (10 : Rat) ^ e))

/-- Does a finite literal value round to infinity in IEEE-754 binary64
(round-to-nearest-even)?  Exactly when its magnitude reaches
(2^54 - 1) * 2^970. -/
def f64IsInfinite (q : Rat) : Bool :=
  ((2 : Rat) ^ 54 - 1) * 2 ^ 970 ≤ |q|

/-! ### Calendar model (for chrono date handling)

`daysFromCivil` is the standard civil-calendar day count (days since
1970-01-01, proleptic Gregorian), matching what
`chrono::NaiveDate::signed_duration_since(...).num_days()` computes for
valid dates. -/

/-- Is `y` a (proleptic Gregorian) leap year? -/
def isLeapYear (y : Int) : Bool :=
  y % 4 = 0 && (y % 100 ≠ 0 || y % 400 = 0)

/-- Days in month `m` of year `y` (`m` between 1 and 12). -/
def daysInMonth (y : Int) (m : Nat) : Nat :=
  if m = 2 then (if isLeapYear y then 29 else 28)
  else if m = 4 || m = 6 || m = 9 || m = 11 then 30
  else 31

/-- Day count of the civil date `y-m-d` relative to 1970-01-01 (Howard
Hinnant's days_from_civil, written with floor division). -/
def daysFromCivil (y : Int) (m d : Nat) : Int :=
  let yAdj : Int := if m ≤ 2 then y - 1 else y
  let era : Int := Int.fdiv yAdj 400
  let yoe : Int := yAdj - era * 400
  let mp : Int := (m + 9 : Int) % 12
  let doy : Int := Int.fdiv (153 * mp + 2) 5 + d - 1
  let doe : Int := yoe * 365 + Int.fdiv yoe 4 - Int.fdiv yoe 100 + doy
  era * 146097 + doe - 719468

/-- A validated calendar date check. -/
def isValidYmd (y : Int) (m d : Nat) : Bool :=
  1 ≤ m && m ≤ 12 && 1 ≤ d && d ≤ daysInMonth y m

/-- Model of `naive_date_to_excel` (parse.rs, lib.rs): the serial day count
relative to the 1899-12-30 spreadsheet epoch.  Exact in f64, so an `Int`. -/
def naive_date_to_excel (y : Int) (m d : Nat) : Int :=
  daysFromCivil y m d - daysFromCivil 1899 12 30

/-- Model of `naive_datetime_to_excel` (parse.rs, lib.rs): the date serial
plus whole-seconds-since-midnight / 86400 (`num_seconds_from_midnight`
discards fractional seconds). -/
def naive_datetime_to_excel (y : Int) (m d h mi s : Nat) : Rat :=
  (naive_date_to_excel y m d : Rat) + ((h * 3600 + mi * 60 + s : Nat) : Rat) / 86400

/-! ### chrono pattern parsing model

The repository uses fixed chrono patterns (types.rs): dates
`%Y-%m-%d`, `%Y/%m/%d`, `%d-%m-%Y`, `%d/%m/%Y`, `%m-%d-%Y`, `%m/%d/%Y` and
datetimes `%Y-%m-%dT%H:%M:%S`, `%Y-%m-%d %H:%M:%S` plus the two `%.f`
variants.  chrono numeric fields skip leading whitespace, read greedily up
to the field width (2 for day/month/hour/minute/second, 4 for an unsigned
year, unbounded for an explicitly signed year), literals must match
exactly, a whitespace format item consumes any (possibly empty) run of
whitespace, and the whole input must be consumed. -/

/-- Greedily take up to `maxN` leading ASCII digits. -/
def takeDigitsUpTo : Nat → List Char → List Char × List Char
  | 0, cs => ([], cs)
  | _ + 1, [] => ([], [])
  | maxN + 1, c :: rest =>
    if isDigitChar c then
      let p := takeDigitsUpTo maxN rest
      (c :: p.1, p.2)
    else ([], c :: rest)

/-- Parse one unsigned numeric field of width at most `w` (chrono skips
leading whitespace first); fails when no digit is found. -/
def parseNumField (w : Nat) (cs : List Char) : Option (Nat × List Char) :=
  let cs := cs.dropWhile rustIsWhitespace
  let p := takeDigitsUpTo w cs
  if p.1 = [] then none else some (natOfDigits p.1, p.2)

/-- Parse a `%Y` year field: leading whitespace skipped; an explicit sign
allows unboundedly many digits, otherwise at most 4 are read. -/
def parseYearField (cs : List Char) : Option (Int × List Char) :=
  let cs := cs.dropWhile rustIsWhitespace
  match cs with
  | '+' :: r =>
    let ds := r.takeWhile isDigitChar
    if ds = [] then none else some ((natOfDigits ds : Int), r.dropWhile isDigitChar)
  | '-' :: r =>
    let ds := r.takeWhile isDigitChar
    if ds = [] then none else some (-(natOfDigits ds : Int), r.dropWhile isDigitChar)
  | _ =>
    let p := takeDigitsUpTo 4 cs
    if p.1 = [] then none else some ((natOfDigits p.1 : Int), p.2)

/-- Expect a literal character. -/
def expectLit (c : Char) (cs : List Char) : Option (List Char) :=
  match cs with
  | [] => none
  | x :: rest => if x = c then some rest else none

/-- The three orders in which the repository's date patterns arrange the
year, month and day fields. -/
inductive FieldOrder where
  | ymd : FieldOrder
  | dmy : FieldOrder
  | mdy : FieldOrder
deriving DecidableEq

/-- One date pattern: a field order and a separator character. -/
structure DatePat where
  ord : FieldOrder
  sep : Char
deriving DecidableEq

/-- `DATE_PATTERNS_ISO` (types.rs): `%Y-%m-%d`, `%Y/%m/%d`. -/
def DATE_PATTERNS_ISO : List DatePat := [⟨.ymd, '-'⟩, ⟨.ymd, '/'⟩]

/-- `DATE_PATTERNS_DMY` (types.rs): `%d-%m-%Y`, `%d/%m/%Y`. -/
def DATE_PATTERNS_DMY : List DatePat := [⟨.dmy, '-'⟩, ⟨.dmy, '/'⟩]

/-- `DATE_PATTERNS_MDY` (types.rs): `%m-%d-%Y`, `%m/%d/%Y`. -/
def DATE_PATTERNS_MDY : List DatePat := [⟨.mdy, '-'⟩, ⟨.mdy, '/'⟩]

/-- Parse the three numeric fields of a date pattern, returning `(y, m, d)`
and the unconsumed input. -/
def parseDateFields (p : DatePat) (cs : List Char) : Option (Int × Nat × Nat × List Char) :=
  match p.ord with
  | .ymd =>
    match parseYearField cs with
    | none => none
    | some (y, cs1) =>
      match expectLit p.sep cs1 with
      | none => none
      | some cs2 =>
        match parseNumField 2 cs2 with
        | none => none
        | some (m, cs3) =>
          match expectLit p.sep cs3 with
          | none => none
          | some cs4 =>
            match parseNumField 2 cs4 with
            | none => none
            | some (d, cs5) => some (y, m, d, cs5)
  | .dmy =>
    match parseNumField 2 cs with
    | none => none
    | some (d, cs1) =>
      match expectLit p.sep cs1 with
      | none => none
      | some cs2 =>
        match parseNumField 2 cs2 with
        | none => none
        | some (m, cs3) =>
          match expectLit p.sep cs3 with
          | none => none
          | some cs4 =>
            match parseYearField cs4 with
            | none => none
            | some (y, cs5) => some (y, m, d, cs5)
  | .mdy =>
    match parseNumField 2 cs with
    | none => none
    | some (m, cs1) =>
      match expectLit p.sep cs1 with
      | none => none
      | some cs2 =>
        match parseNumField 2 cs2 with
        | none => none
        | some (d, cs3) =>
          match expectLit p.sep cs3 with
          | none => none
          | some cs4 =>
            match parseYearField cs4 with
            | none => none
            | some (y, cs5) => some (y, m, d, cs5)

/-- Model of `chrono::NaiveDate::parse_from_str` for one of the
repository's date patterns: the fields must parse, the whole input must be
consumed, and the date must be calendar-valid. -/
def parseDateWithPat (p : DatePat) (cs : List Char) : Option (Int × Nat × Nat) :=
  match parseDateFields p cs with
  | none => none
  | some (y, m, d, rest) =>
    if rest = [] && isValidYmd y m d then some (y, m, d) else none

/-- One datetime pattern (types.rs `DATETIME_PATTERNS`): date part is
always `%Y-%m-%d`; `tLit` selects the literal `T` (versus a whitespace
item); `frac` selects the trailing `%.f`. -/
structure DateTimePat where
  tLit : Bool
  frac : Bool
deriving DecidableEq

/-- `DATETIME_PATTERNS` (types.rs), in declaration order. -/
def DATETIME_PATTERNS : List DateTimePat :=
  [⟨true, false⟩, ⟨false, false⟩, ⟨true, true⟩, ⟨false, true⟩]

/-- Parse the `%H:%M:%S` time fields. -/
def parseTimeFields (cs : List Char) : Option (Nat × Nat × Nat × List Char) :=
  match parseNumField 2 cs with
  | none => none
  | some (h, cs1) =>
    match expectLit ':' cs1 with
    | none => none
    | some cs2 =>
      match parseNumField 2 cs2 with
      | none => none
      | some (mi, cs3) =>
        match expectLit ':' cs3 with
        | none => none
        | some cs4 =>
          match parseNumField 2 cs4 with
          | none => none
          | some (s, cs5) => some (h, mi, s, cs5)

/-- Consume an optional `%.f` fractional-second item: nothing, or a dot
followed by one or more digits (the value is irrelevant to the serial,
which uses whole seconds only). -/
def consumeFrac (cs : List Char) : Option (List Char) :=
  match cs with
  | '.' :: rest =>
    let ds := rest.takeWhile isDigitChar
    if ds = [] then none else some (rest.dropWhile isDigitChar)
  | rest => some rest

/-- Model of `chrono::NaiveDateTime::parse_from_str` for one of the
repository's datetime patterns, returning the validated
`(y, m, d, h, mi, s)`. -/
def parseDateTimeWithPat (p : DateTimePat) (cs : List Char) :
    Option (Int × Nat × Nat × Nat × Nat × Nat) :=
  match parseDateFields ⟨.ymd, '-'⟩ cs with
  | none => none
  | some (y, m, d, cs1) =>
    let sepOk : Option (List Char) :=
      if p.tLit then expectLit 'T' cs1 else some (cs1.dropWhile rustIsWhitespace)
    match sepOk with
    | none => none
    | some cs2 =>
      match parseTimeFields cs2 with
      | none => none
      | some (h, mi, s, cs3) =>
        let after : Option (List Char) := if p.frac then consumeFrac cs3 else some cs3
        match after with
        | none => none
        | some cs4 =>
          if cs4 = [] && isValidYmd y m d && h ≤ 23 && mi ≤ 59 && s ≤ 59 then
            some (y, m, d, h, mi, s)
          else none

/-- First successful parse over a pattern list. -/
def firstSome {α β : Type} (f : α → Option β) : List α → Option β
  | [] => none
  | a :: rest =>
    match f a with
    | some b => some b
    | none => firstSome f rest

/-! ### DateOrder and CellValue (types.rs) -/

/-- `DateOrder` (types.rs): preference order for ambiguous text dates. -/
inductive DateOrder where
  | Auto : DateOrder
  | MDY : DateOrder
  | DMY : DateOrder
deriving DecidableEq

/-- `DateOrder::parse` (types.rs). -/
def DateOrder.parse (s : String) : Option DateOrder :=
  let l := toLowerAscii s
  if l = "auto" then some .Auto
  else if l = "mdy" || l = "us" then some .MDY
  else if l = "dmy" || l = "eu" || l = "european" then some .DMY
  else none

/-- `DateOrder::patterns` (types.rs): ISO patterns always first, then the
two ambiguous pattern sets in preference order. -/
def DateOrder.patterns : DateOrder → List DatePat
  | .Auto => DATE_PATTERNS_ISO ++ DATE_PATTERNS_DMY ++ DATE_PATTERNS_MDY
  | .DMY => DATE_PATTERNS_ISO ++ DATE_PATTERNS_DMY ++ DATE_PATTERNS_MDY
  | .MDY => DATE_PATTERNS_ISO ++ DATE_PATTERNS_MDY ++ DATE_PATTERNS_DMY

/-- Alias so the `CellValue` constructor can keep the source's name
`String`. -/
abbrev Str := String

/-- `CellValue` (types.rs): the canonical closed set of cell types.
`Float` carries the exact rational value of the accepted literal; `Date`
and `DateTime` carry exact serial day counts. -/
inductive CellValue where
  | Empty : CellValue
  | Integer (v : Int) : CellValue
  | Float (q : Rat) : CellValue
  | Boolean (b : Bool) : CellValue
  | Date (serial : Int) : CellValue
  | DateTime (serial : Rat) : CellValue
  | String (s : Str) : CellValue
deriving DecidableEq

/-- Try every datetime pattern in order, producing the Excel serial. -/
def tryDateTimePatterns (cs : List Char) : Option Rat :=
  firstSome
    (fun p =>
      match parseDateTimeWithPat p cs with
      | some (y, m, d, h, mi, s) => some (naive_datetime_to_excel y m d h mi s)
      | none => none)
    DATETIME_PATTERNS

/-- Try a list of date patterns in order, producing the Excel serial. -/
def tryDatePatterns (pats : List DatePat) (cs : List Char) : Option Int :=
  firstSome
    (fun p =>
      match parseDateWithPat p cs with
      | some (y, m, d) => some (naive_date_to_excel y m d)
      | none => none)
    pats

/-- `parse_value` (parse.rs lines 386-432; an identical copy sits in lib.rs
lines 1215-1261): the Value Classifier.  Trim; empty → Empty; i64 →
Integer; f64 with NaN/Inf → Empty, else Float; case-insensitive booleans;
datetime patterns; date patterns in `date_order` preference; default
String. -/
def parse_value (value : String) (date_order : DateOrder) : CellValue :=
  let trimmed := rustTrim value
  if trimmed = "" then .Empty
  else
    match parseI64 trimmed with
    | some v => .Integer v
    | none =>
      match parseF64 trimmed with
      | some .nan => .Empty
      | some (.inf _) => .Empty
      | some (.finite q) => if f64IsInfinite q then .Empty else .Float q
      | none =>
        if eqIgnoreAsciiCase trimmed "true" then .Boolean true
        else if eqIgnoreAsciiCase trimmed "false" then .Boolean false
        else
          match tryDateTimePatterns trimmed.data with
          | some serial => .DateTime serial
          | none =>
            match tryDatePatterns date_order.patterns trimmed.data with
            | some serial => .Date serial
            | none => .String trimmed

/-! ### Worksheet write operations and `write_cell` (convert.rs) -/

/-- The two number formats built by the converters ("yyyy-mm-dd" and
"yyyy-mm-dd hh:mm:ss"). -/
inductive NumFmt where
  | dateFmt : NumFmt
  | datetimeFmt : NumFmt
deriving DecidableEq

/-- One write against the worksheet sink (external collaborator), recorded
as a trace element. -/
inductive WsOp where
  | writeString (row col : Nat) (s : String) : WsOp
  | writeNumber (row col : Nat) (q : Rat) : WsOp
  | writeNumberWithFormat (row col : Nat) (q : Rat) (fmt : NumFmt) : WsOp
  | writeBoolean (row col : Nat) (b : Bool) : WsOp
deriving DecidableEq

/-- `MAX_SAFE_INT` (convert.rs line 24): 2^53. -/
def MAX_SAFE_INT : Int := 2 ^ 53

/-- Rust release-build `i64::abs`: wraps on `i64::MIN` (returns `i64::MIN`
itself), otherwise the absolute value. -/
def wrappingAbsI64 (v : Int) : Int :=
  if v = -(2 ^ 63) then v else |v|

/-- `write_cell` (convert.rs lines 27-63): how one `CellValue` reaches the
sink.  Integers with (wrapping) absolute value above `MAX_SAFE_INT` are
written as their decimal string; dates/datetimes as numbers with the
corresponding format. -/
def write_cell (row col : Nat) (value : CellValue) : WsOp :=
  match value with
  | .Empty => .writeString row col ""
  | .Integer v =>
    if MAX_SAFE_INT < wrappingAbsI64 v then .writeString row col (intToDecString v)
    else .writeNumber row col (v : Rat)
  | .Float q => .writeNumber row col q
  | .Boolean b => .writeBoolean row col b
  | .Date serial => .writeNumberWithFormat row col (serial : Rat) .dateFmt
  | .DateTime serial => .writeNumberWithFormat row col serial .datetimeFmt
  | .String s => .writeString row col s

/-! ### Column pattern matching

`matches_pattern` exists twice in the repository: the modular copy
(parse.rs lines 321-349) guards the both-wildcard branch with
`pattern.len() <= 2`, while the lib.rs copy (lines 1095-1120) slices
`pattern[1..pattern.len()-1]` unguarded.  Byte and character lengths agree
on every branch condition involved (`*` is one byte). -/

/-- `matches_pattern` (parse.rs lines 321-349), the guarded copy. -/
def matches_pattern (column_name pattern : String) : Bool :=
  let p := pattern.data
  let starts_with_star := startsWithL p ['*']
  let ends_with_star := endsWithL p ['*']
  match starts_with_star, ends_with_star with
  | true, true =>
    if p.length ≤ 2 then true
    else containsL column_name.data ((p.drop 1).dropLast)
  | true, false => endsWithL column_name.data (p.drop 1)
  | false, true => startsWithL column_name.data p.dropLast
  | false, false => column_name = pattern

/-- The lib.rs copy of `matches_pattern` (lines 1095-1120): no lone-star
guard, so the both-wildcard branch slices `pattern[1..pattern.len()-1]`,
which panics (modelled as `Except.error` carrying the Rust panic message)
when the pattern is exactly `"*"`. -/
def matchesPatternLib (column_name pattern : String) : Except Str Bool :=
  let p := pattern.data
  let starts_with_star := startsWithL p ['*']
  let ends_with_star := endsWithL p ['*']
  match starts_with_star, ends_with_star with
  | true, true =>
    if p.length < 2 then .error "slice index starts at 1 but ends at 0"
    else .ok (containsL column_name.data ((p.drop 1).dropLast))
  | true, false => .ok (endsWithL column_name.data (p.drop 1))
  | false, true => .ok (startsWithL column_name.data p.dropLast)
  | false, false => .ok (column_name = pattern)

/-- The Column Pattern Matcher as the specification words it (section 4.2):
a lone `*` or `**` matches everything; both-wildcarded patterns test
substring containment of the inner text; `*suffix` tests suffix;
`prefix*` tests prefix; otherwise exact equality. -/
def matchesSpec (column_name pattern : String) : Bool :=
  if pattern = "*" || pattern = "**" then true
  else
    let p := pattern.data
    if startsWithL p ['*'] && endsWithL p ['*'] then
      containsL column_name.data ((p.drop 1).dropLast)
    else if startsWithL p ['*'] then endsWithL column_name.data (p.drop 1)
    else if endsWithL p ['*'] then startsWithL column_name.data p.dropLast
    else column_name = pattern

/-! ### Cell reference parsing (parse.rs lines 83-149; identical copy in
lib.rs lines 557-624) -/

/-- The u16 column-letter fold of `parse_cell_ref`:
`acc * 26 + (c - 'A' + 1)` on `u16`, which wraps modulo 2^16 in release
builds (and panics on overflow in debug builds); the wrap is modelled. -/
def colLettersFold (letters : List Char) : Nat :=
  letters.foldl (fun acc c => (acc * 26 + (c.toNat - 65 + 1)) % 65536) 0

/-- `parse_cell_ref` (parse.rs lines 83-133): trim, upper-case, split into
leading letters and a 1-based row number, producing 0-based
`(row, col)`. -/
def parse_cell_ref (cell_ref : Str) : Except Str (Nat × Nat) :=
  let up := (trimChars cell_ref.data).map toUpperAsciiChar
  if up = [] then .error "Empty cell reference"
  else
    let col_str := up.takeWhile (fun c => 65 ≤ c.toNat && c.toNat ≤ 90)
    let row_str := up.drop col_str.length
    if col_str.length = 0 then
      .error ("Invalid cell reference \x27" ++ String.mk up ++ "\x27: no column letters")
    else if row_str = [] then
      .error ("Invalid cell reference \x27" ++ String.mk up ++ "\x27: no row number")
    else
      let col := colLettersFold col_str - 1
      match parseU32 (String.mk row_str) with
      | none =>
        .error ("Invalid row number in cell reference \x27" ++ String.mk up ++ "\x27")
      | some row1 =>
        if row1 = 0 then
          .error ("Invalid cell reference \x27" ++ String.mk up ++
            "\x27: row number must be >= 1 (Excel rows are 1-based)")
        else .ok (row1 - 1, col)

/-- Split a string on `:` (model of Rust `str::split(':')` collected to a
vector). -/
def splitOnColon (cs : List Char) : List (List Char) :=
  match cs with
  | [] => [[]]
  | c :: rest =>
    let r := splitOnColon rest
    if c = ':' then [] :: r
    else
      match r with
      | [] => [[c]]
      | g :: gs => (c :: g) :: gs

/-- `parse_cell_range` (parse.rs lines 136-149): exactly two `:`-separated
parts, each a cell reference. -/
def parse_cell_range (range_str : Str) : Except Str (Nat × Nat × Nat × Nat) :=
  match splitOnColon range_str.data with
  | [a, b] =>
    match parse_cell_ref (String.mk a) with
    | .error e => .error e
    | .ok (fr, fc) =>
      match parse_cell_ref (String.mk b) with
      | .error e => .error e
      | .ok (lr, lc) => .ok (fr, fc, lr, lc)
  | _ => .error ("Invalid cell range \x27" ++ range_str ++ "\x27: expected format \x27A1:B2\x27")

/-! ### CSV conversion (convert.rs)

A CSV file is modelled by its record list (the csv reader is an external
collaborator; `flexible(true)` allows records of differing lengths).  Both
converters are modelled as trace-producing functions: on success the trace
of cell writes plus the `(row_count, col_count)` pair; any error aborts the
conversion before the workbook is saved, so the partial trace is
discarded. -/

/-- u16::MAX. -/
def U16_MAX : Nat := 65535

/-- 2^32, the u32 wrap modulus. -/
def U32_MOD : Nat := 4294967296

/-- The cell writes of one record in the sequential converter: per cell,
the `u16::try_from(col_idx)` check (dead while the record-level check
passes) then `write_cell(parse_value(...))`. -/
def recordWritesGo (rowIdx : Nat) (d : DateOrder) : Nat → List Str → Except Str (List WsOp)
  | _, [] => .ok []
  | colIdx, v :: rest =>
    if colIdx ≤ U16_MAX then
      match recordWritesGo rowIdx d (colIdx + 1) rest with
      | .error e => .error e
      | .ok ws => .ok (write_cell rowIdx colIdx (parse_value v d) :: ws)
    else .error ("Column index " ++ natToDecString colIdx ++ " exceeds u16 limit")

/-- Loop body of `convert_csv_to_xlsx` (convert.rs lines 105-129):
per record, the `u16::try_from(record.len())` check, the running column
maximum, the cell writes, and the (u32-wrapping) row counter. -/
def convertCsvGo (d : DateOrder) :
    List (List Str) → Nat → Nat → List WsOp → Except Str (List WsOp × Nat × Nat)
  | [], rowCount, colCount, ops => .ok (ops, rowCount, colCount)
  | record :: rest, rowCount, colCount, ops =>
    if record.length ≤ U16_MAX then
      let colCount' := max colCount record.length
      match recordWritesGo rowCount d 0 record with
      | .error e => .error e
      | .ok ws => convertCsvGo d rest ((rowCount + 1) % U32_MOD) colCount' (ops ++ ws)
    else .error ("Column count " ++ natToDecString record.length ++ " exceeds u16 limit")

/-- `convert_csv_to_xlsx` (convert.rs lines 76-137): sequential streaming
conversion. -/
def convert_csv_to_xlsx (records : List (List Str)) (d : DateOrder) :
    Except Str (List WsOp × Nat × Nat) :=
  convertCsvGo d records 0 0 []

/-- The cell writes of one pre-parsed row in the parallel converter. -/
def writeRowGo (rowIdx : Nat) : Nat → List CellValue → Except Str (List WsOp)
  | _, [] => .ok []
  | colIdx, v :: rest =>
    if colIdx ≤ U16_MAX then
      match writeRowGo rowIdx (colIdx + 1) rest with
      | .error e => .error e
      | .ok ws => .ok (write_cell rowIdx colIdx v :: ws)
    else .error ("Column index " ++ natToDecString colIdx ++ " exceeds u16 limit")

/-- The sequential write phase of the parallel converter (convert.rs lines
196-212), with the per-row `u32::try_from` check. -/
def writeParsedGo : Nat → List (List CellValue) → Except Str (List WsOp)
  | _, [] => .ok []
  | rowIdx, row :: rest =>
    if rowIdx ≤ U32_MOD - 1 then
      match writeRowGo rowIdx 0 row with
      | .error e => .error e
      | .ok ws =>
        match writeParsedGo (rowIdx + 1) rest with
        | .error e => .error e
        | .ok rest' => .ok (ws ++ rest')
    else .error ("Row index " ++ natToDecString rowIdx ++ " exceeds u32 limit")

/-- Maximum record length (`records.iter().map(|r| r.len()).max().unwrap_or(0)`). -/
def maxRecordLen (records : List (List Str)) : Nat :=
  records.foldl (fun m r => max m r.length) 0

/-- `convert_csv_to_xlsx_parallel` (convert.rs lines 143-220): load all
records, check the u32 row and u16 column bounds, classify every cell (the
data-parallel fan-out is pure, so modelled as a map), then write
sequentially. -/
def convert_csv_to_xlsx_parallel (records : List (List Str)) (d : DateOrder) :
    Except Str (List WsOp × Nat × Nat) :=
  if records.length ≤ U32_MOD - 1 then
    let maxCols := maxRecordLen records
    if maxCols ≤ U16_MAX then
      let parsed := records.map (fun r => r.map (fun v => parse_value v d))
      match writeParsedGo 0 parsed with
      | .error e => .error e
      | .ok ops => .ok (ops, records.length, maxCols)
    else .error ("Column count " ++ natToDecString maxCols ++ " exceeds u16 limit")
  else .error ("Row count " ++ natToDecString records.length ++ " exceeds u32 limit")

/-! ### The CLI binary (main.rs)

main.rs is a standalone binary with its own inline value cascade.  Its
`Args` surface (lines 13-30) has positional `input`/`output` and flags
`--sheet-name`/`--verbose` only — there is no date-order flag.  Its
`write_value` (lines 32-54) does not trim, has no datetime/date patterns
and no 2^53 demotion, and casts column counts with `as u16` (wrapping). -/

/-- The clap argument surface of main.rs: positional input and output paths,
a sheet-name flag defaulting to "Sheet1", and a verbose flag. -/
structure Args where
  input : Str
  output : Str
  sheet_name : Str := "Sheet1"
  verbose : Bool := false

/-- `write_value` (main.rs lines 32-54): the binary's reduced inline
cascade — empty, i64 (written as a number regardless of magnitude), f64
(NaN/Inf written as an empty string), booleans, else string.  No trimming,
no date or datetime recognition, no large-integer demotion. -/
def write_value (row col : Nat) (value : Str) : WsOp :=
  if value = "" then .writeString row col ""
  else
    match parseI64 value with
    | some v => .writeNumber row col (v : Rat)
    | none =>
      match parseF64 value with
      | some .nan => .writeString row col ""
      | some (.inf _) => .writeString row col ""
      | some (.finite q) =>
        if f64IsInfinite q then .writeString row col "" else .writeNumber row col q
      | none =>
        if eqIgnoreAsciiCase value "true" then .writeBoolean row col true
        else if eqIgnoreAsciiCase value "false" then .writeBoolean row col false
        else .writeString row col value

/-- One record of the main.rs loop (lines 76-93): `record.len() as u16`
and `col_idx as u16` are wrapping casts. -/
def mainRecordWrites (rowIdx : Nat) : Nat → List Str → List WsOp
  | _, [] => []
  | colIdx, v :: rest =>
    write_value rowIdx (colIdx % 65536) v :: mainRecordWrites rowIdx (colIdx + 1) rest

/-- The record loop of main.rs `convert_csv_to_xlsx` (lines 56-110). -/
def mainConvertGo : List (List Str) → Nat → Nat → List WsOp → List WsOp × Nat × Nat
  | [], rowCount, colCount, ops => (ops, rowCount, colCount)
  | record :: rest, rowCount, colCount, ops =>
    let numCols := record.length % 65536
    let colCount' := max colCount numCols
    let ws := mainRecordWrites rowCount 0 record
    mainConvertGo rest ((rowCount + 1) % U32_MOD) colCount' (ops ++ ws)

/-- main.rs `convert_csv_to_xlsx`: I/O errors from the external source and
sink are abstracted into the `Except` error of the surrounding run. -/
def mainConvert (records : List (List Str)) : List WsOp × Nat × Nat :=
  mainConvertGo records 0 0 []

/-- `main` (main.rs lines 112-130): on success print `OK <rows> <cols>`
and exit 0; on failure print `Error: <message>` to the diagnostic stream
and exit 1.  Source or sink failures are modelled as an `Except.error`
input. -/
def mainRun (result : Except Str (List WsOp × Nat × Nat)) : Nat × Str :=
  match result with
  | .ok (_, rows, cols) => (0, "OK " ++ natToDecString rows ++ " " ++ natToDecString cols)
  | .error e => (1, "Error: " ++ e)

/-! ### Feature registrations (features.rs / convert.rs)

Feature application is modelled as a trace of registration events against
the worksheet sink.  Payloads whose construction is delegated to the
external styling engine (Format dictionaries, conditional-format scales,
validation rule objects, image decoding) are abstracted; the registration
events, their gating conditions, their cell/range reference parsing and the
error paths the claims touch are modelled faithfully. -/

/-- One feature registration event. -/
inductive FeatureOp where
  | addTable (firstRow firstCol lastRow lastCol : Nat) : FeatureOp
  | formulaHeader (col : Nat) (name : Str) : FeatureOp
  | formulaCell (row col : Nat) (formula : Str) : FeatureOp
  | condFormat (firstRow col lastRow : Nat) : FeatureOp
  | freezePanes : FeatureOp
  | autofit : FeatureOp
  | setColumnWidth (col : Nat) (w : Rat) : FeatureOp
  | setRowHeight (row : Nat) (h : Rat) : FeatureOp
  | mergeRange (firstRow firstCol lastRow lastCol : Nat) (text : Str) : FeatureOp
  | hyperlink (row col : Nat) (url : Str) : FeatureOp
  | note (row col : Nat) (text : Str) : FeatureOp
  | validation (firstRow col lastRow : Nat) : FeatureOp
  | richText (row col : Nat) : FeatureOp
  | image (row col : Nat) : FeatureOp
deriving DecidableEq

/-- Replace every occurrence of `needle` in `hay` (model of Rust
`str::replace`), with structural fuel. -/
def replaceAllAux (needle repl : List Char) : Nat → List Char → List Char
  | 0, hay => hay
  | fuel + 1, hay =>
    match hay with
    | [] => []
    | c :: rest =>
      if needle ≠ [] && startsWithL hay needle then
        repl ++ replaceAllAux needle repl fuel (hay.drop needle.length)
      else c :: replaceAllAux needle repl fuel rest

/-- Model of Rust `str::replace`. -/
def replaceAll (hay needle repl : Str) : Str :=
  String.mk (replaceAllAux needle.data repl.data hay.data.length hay.data)

/-- Column lookup in a string-keyed width map, modelled as an ordered
association list. -/
def lookupStr {α : Type} (m : List (Str × α)) (k : Str) : Option α :=
  match m with
  | [] => none
  | (k', v) :: rest => if k' = k then some v else lookupStr rest k

/-- The formulas of one formula column (`apply_formula_columns` inner loop,
features.rs lines 634-643): one `{row}`-substituted formula per data row. -/
def formulaCellsGo (colIdx : Nat) (template : Str) : Nat → Nat → List FeatureOp
  | _, 0 => []
  | row, fuel + 1 =>
    .formulaCell row colIdx (replaceAll template "\x7brow\x7d" (natToDecString (row + 1)))
      :: formulaCellsGo colIdx template (row + 1) fuel

/-- `apply_formula_columns` (features.rs lines 610-649): for each formula
column in declaration order, a header write at row 0 then one formula per
data row; returns the ops and the number of columns added. -/
def apply_formula_columns (formulas : List (Str × Str)) (startCol : Nat)
    (dataStartRow dataEndRow : Nat) : List FeatureOp × Nat :=
  match formulas with
  | [] => ([], 0)
  | (name, template) :: rest =>
    let here := FeatureOp.formulaHeader startCol name
      :: formulaCellsGo startCol template dataStartRow (dataEndRow + 1 - dataStartRow)
    let p := apply_formula_columns rest (startCol + 1) dataStartRow dataEndRow
    (here ++ p.1, p.2 + 1)

/-- `apply_column_widths` (features.rs lines 552-573): for each column
index below `colCount`, a specific width overrides `_all`. -/
def applyColumnWidthsGo (widths : List (Str × Rat)) (globalW : Option Rat) :
    Nat → Nat → List FeatureOp
  | _, 0 => []
  | colIdx, fuel + 1 =>
    let here :=
      match lookupStr widths (natToDecString colIdx) with
      | some w => [FeatureOp.setColumnWidth colIdx w]
      | none =>
        match globalW with
        | some w => [FeatureOp.setColumnWidth colIdx w]
        | none => []
    here ++ applyColumnWidthsGo widths globalW (colIdx + 1) fuel

/-- `apply_column_widths` (features.rs lines 552-573). -/
def apply_column_widths (colCount : Nat) (widths : List (Str × Rat)) : List FeatureOp :=
  applyColumnWidthsGo widths (lookupStr widths "_all") 0 colCount

/-- `apply_column_widths_with_autofit_cap` (features.rs lines 576-606):
autofit unless in constant-memory mode, then specific widths override the
`_all` cap. -/
def apply_column_widths_with_autofit_cap (colCount : Nat) (widths : List (Str × Rat))
    (constant_memory : Bool) : List FeatureOp :=
  (if constant_memory then [] else [FeatureOp.autofit])
    ++ applyColumnWidthsGo widths (lookupStr widths "_all") 0 colCount

/-- `apply_merged_ranges` (features.rs lines 652-683): each range string is
parsed (aborting on a malformed one) and merged. -/
def apply_merged_ranges (ranges : List (Str × Str)) : Except Str (List FeatureOp) :=
  match ranges with
  | [] => .ok []
  | (rangeStr, text) :: rest =>
    match parse_cell_range rangeStr with
    | .error e => .error e
    | .ok (fr, fc, lr, lc) =>
      match apply_merged_ranges rest with
      | .error e => .error e
      | .ok ops => .ok (.mergeRange fr fc lr lc text :: ops)

/-- `apply_hyperlinks` (features.rs lines 686-705). -/
def apply_hyperlinks (links : List (Str × Str)) : Except Str (List FeatureOp) :=
  match links with
  | [] => .ok []
  | (cellRef, url) :: rest =>
    match parse_cell_ref cellRef with
    | .error e => .error e
    | .ok (row, col) =>
      match apply_hyperlinks rest with
      | .error e => .error e
      | .ok ops => .ok (.hyperlink row col url :: ops)

/-- `apply_comments` (features.rs lines 708-726). -/
def apply_comments (comments : List (Str × Str)) : Except Str (List FeatureOp) :=
  match comments with
  | [] => .ok []
  | (cellRef, text) :: rest =>
    match parse_cell_ref cellRef with
    | .error e => .error e
    | .ok (row, col) =>
      match apply_comments rest with
      | .error e => .error e
      | .ok ops => .ok (.note row col text :: ops)

/-- `apply_rich_text` (features.rs lines 889-928), registration events
only. -/
def apply_rich_text (entries : List Str) : Except Str (List FeatureOp) :=
  match entries with
  | [] => .ok []
  | cellRef :: rest =>
    match parse_cell_ref cellRef with
    | .error e => .error e
    | .ok (row, col) =>
      match apply_rich_text rest with
      | .error e => .error e
      | .ok ops => .ok (.richText row col :: ops)

/-- `apply_images` (features.rs lines 931-969), registration events only. -/
def apply_images (entries : List Str) : Except Str (List FeatureOp) :=
  match entries with
  | [] => .ok []
  | cellRef :: rest =>
    match parse_cell_ref cellRef with
    | .error e => .error e
    | .ok (row, col) =>
      match apply_images rest with
      | .error e => .error e
      | .ok ops => .ok (.image row col :: ops)

/-- `apply_conditional_formats` (features.rs lines 972-1165): pattern-matched
columns each receive a registration over the data rows; the scale/bar/icon
payload construction is abstracted. -/
def applyCondFormatsForCols (dataStartRow dataEndRow : Nat) (cols : List Nat) :
    List FeatureOp :=
  cols.map (fun c => .condFormat dataStartRow c dataEndRow)

/-- Indices of the columns matching a pattern (first component of the
`columns.iter().enumerate().filter(...)` idiom used by conditional formats
and validations). -/
def matchedColsGo (pat : Str) : Nat → List Str → List Nat
  | _, [] => []
  | idx, name :: rest =>
    if matches_pattern name pat then idx :: matchedColsGo pat (idx + 1) rest
    else matchedColsGo pat (idx + 1) rest

/-- Indices of the columns matching a pattern. -/
def matchedCols (columns : List Str) (pat : Str) : List Nat :=
  matchedColsGo pat 0 columns

/-- `apply_conditional_formats` over the configured pattern list. -/
def apply_conditional_formats (columns : List Str) (dataStartRow dataEndRow : Nat)
    (condFormats : List Str) : List FeatureOp :=
  match condFormats with
  | [] => []
  | pat :: rest =>
    applyCondFormatsForCols dataStartRow dataEndRow (matchedCols columns pat)
      ++ apply_conditional_formats columns dataStartRow dataEndRow rest

/-! ### Data validations (features.rs lines 729-887) -/

/-- A validation configuration dictionary after Python extraction: the
`type` key (absent modelled as `none`) and, for list validations, the
`values` key.  The numeric min/max keys of the other types default via
`unwrap_or` and cannot fail, so they are abstracted. -/
structure ValidationConfig where
  vtype : Option Str := none
  values : Option (List Str) := none

/-- The combined length check of a list validation (features.rs lines
777-778): the sum of the value byte lengths plus one separating comma
between each pair of adjacent values. -/
def totalListChars (values : List Str) : Nat :=
  (values.map String.utf8ByteSize).sum + (values.length - 1)

/-- The error message of an oversized list validation (features.rs lines
780-784). -/
def listLimitMsg (pat : Str) (total : Nat) : Str :=
  "validations[\x27" ++ pat ++ "\x27]: list values exceed Excel\x27s 255 character limit ("
    ++ natToDecString total ++ " chars). Use fewer or shorter values."

/-- The per-column body of `apply_validations` for one configuration entry
(features.rs lines 758-884): dispatch on the lower-cased type; the list
branch re-extracts `values` and performs the 255-character check before the
registration. -/
def applyValidationForCol (pat : Str) (config : ValidationConfig)
    (dataStartRow dataEndRow colIdx : Nat) (vtype : Str) : Except Str FeatureOp :=
  let t := toLowerAscii vtype
  if t = "list" then
    match config.values with
    | none => .error ("validations[\x27" ++ pat ++ "\x27]: list type requires \x27values\x27")
    | some values =>
      let total := totalListChars values
      if total > 255 then .error (listLimitMsg pat total)
      else .ok (.validation dataStartRow colIdx dataEndRow)
  else if t = "whole_number" || t = "whole" || t = "integer" then
    .ok (.validation dataStartRow colIdx dataEndRow)
  else if t = "decimal" || t = "number" then
    .ok (.validation dataStartRow colIdx dataEndRow)
  else if t = "text_length" || t = "textlength" || t = "length" then
    .ok (.validation dataStartRow colIdx dataEndRow)
  else
    .error ("Unknown validation type \x27" ++ vtype
      ++ "\x27. Valid types: list, whole_number, decimal, text_length")

/-- The loop over the matched columns of one validation entry. -/
def applyValidationCols (pat : Str) (config : ValidationConfig)
    (dataStartRow dataEndRow : Nat) (vtype : Str) :
    List Nat → Except Str (List FeatureOp)
  | [] => .ok []
  | colIdx :: rest =>
    match applyValidationForCol pat config dataStartRow dataEndRow colIdx vtype with
    | .error e => .error e
    | .ok op =>
      match applyValidationCols pat config dataStartRow dataEndRow vtype rest with
      | .error e => .error e
      | .ok ops => .ok (op :: ops)

/-- `apply_validations` (features.rs lines 729-887): for each configured
entry in declaration order, find the matching columns (skipping the entry
entirely when none matches — before even reading its type), extract the
type, and register per column. -/
def apply_validations (columns : List Str) (dataStartRow dataEndRow : Nat) :
    List (Str × ValidationConfig) → Except Str (List FeatureOp)
  | [] => .ok []
  | (pat, config) :: rest =>
    let cols := matchedCols columns pat
    if cols = [] then apply_validations columns dataStartRow dataEndRow rest
    else
      match config.vtype with
      | none => .error ("validations[\x27" ++ pat ++ "\x27]: missing \x27type\x27 key")
      | some vtype =>
        match applyValidationCols pat config dataStartRow dataEndRow vtype cols with
        | .error e => .error e
        | .ok ops =>
          match apply_validations columns dataStartRow dataEndRow rest with
          | .error e => .error e
          | .ok ops' => .ok (ops ++ ops')

/-! ### The post-data feature-application pipeline
(convert.rs `convert_dataframe_to_xlsx`, lines 642-781) -/

/-- The valid table style names accepted by `parse_table_style` (parse.rs
lines 12-80). -/
def tableStyleNames : List Str :=
  "None" :: ((List.range 21).map (fun i => "Light" ++ natToDecString (i + 1))
    ++ (List.range 28).map (fun i => "Medium" ++ natToDecString (i + 1))
    ++ (List.range 11).map (fun i => "Dark" ++ natToDecString (i + 1)))

/-- `parse_table_style` (parse.rs lines 12-80); the resulting `TableStyle`
enum value is delegated to the sink, so only validity is modelled. -/
def parse_table_style (style : Str) : Except Str Unit :=
  if tableStyleNames.contains style then .ok ()
  else
    .error ("Unknown table_style \x27" ++ style
      ++ "\x27. Valid styles: Light1-Light21, Medium1-Medium28, Dark1-Dark11, None")

/-- `ExtractedOptions` (types.rs lines 109-121), with payloads at the
granularity the feature pipeline needs: conditional formats / rich text /
images keep their reference keys, merged ranges / hyperlinks / comments
their reference and text. -/
structure ExtractedOptions where
  column_widths : Option (List (Str × Rat)) := none
  conditional_formats : Option (List Str) := none
  formula_columns : Option (List (Str × Str)) := none
  merged_ranges : Option (List (Str × Str)) := none
  hyperlinks : Option (List (Str × Str)) := none
  comments : Option (List (Str × Str)) := none
  validations : Option (List (Str × ValidationConfig)) := none
  rich_text : Option (List Str) := none
  images : Option (List Str) := none

/-- The scalar parameters reaching the post-data portion of
`convert_dataframe_to_xlsx`. -/
structure FeatureParams where
  constant_memory : Bool
  include_header : Bool
  autofit : Bool
  freeze_panes : Bool
  table_style : Option Str := none
  row_heights : Option (List (Nat × Rat)) := none
  columns : List Str := []
  data_start_row : Nat := 0
  row_count : Nat := 0
  row_idx : Nat := 0
  col_count : Nat := 0

/-- Table registration step (convert.rs lines 642-664): requires a
non-constant-memory sink and at least one data row. -/
def featureStepTable (p : FeatureParams) : Except Str (List FeatureOp) :=
  match p.table_style with
  | none => .ok []
  | some styleName =>
    if !p.constant_memory && p.row_count > 0 then
      match parse_table_style styleName with
      | .error e => .error e
      | .ok _ =>
        let lastRow := p.row_idx - 1
        let lastCol := p.col_count - 1
        if lastRow ≥ p.data_start_row then
          .ok [.addTable p.data_start_row 0 lastRow lastCol]
        else .ok []
    else .ok []

/-- Formula-column step (convert.rs lines 666-685): note the absence of a
`constant_memory` gate in the source. -/
def featureStepFormulas (p : FeatureParams) (opts : ExtractedOptions) : List FeatureOp :=
  match opts.formula_columns with
  | none => []
  | some formulas =>
    if formulas ≠ [] && p.row_count > 0 then
      let ds := if p.include_header then 1 else 0
      let de := p.row_idx - 1
      if de ≥ ds then (apply_formula_columns formulas p.col_count ds de).1 else []
    else []

/-- Conditional-format step (convert.rs lines 687-703). -/
def featureStepCondFormats (p : FeatureParams) (opts : ExtractedOptions) : List FeatureOp :=
  match opts.conditional_formats with
  | none => []
  | some cf =>
    if !p.constant_memory && p.row_count > 0 then
      let ds := if p.include_header then 1 else 0
      let de := p.row_idx - 1
      if de ≥ ds then apply_conditional_formats p.columns ds de cf else []
    else []

/-- Freeze-panes step (convert.rs lines 705-710). -/
def featureStepFreeze (p : FeatureParams) : List FeatureOp :=
  if p.freeze_panes && p.include_header && !p.constant_memory then [.freezePanes] else []

/-- Column-width / autofit step (convert.rs lines 712-724): note that the
plain `apply_column_widths` branch carries no `constant_memory` gate in the
source. -/
def featureStepWidths (p : FeatureParams) (opts : ExtractedOptions) : List FeatureOp :=
  match opts.column_widths with
  | some widths =>
    if p.autofit && (lookupStr widths "_all").isSome && !p.constant_memory then
      apply_column_widths_with_autofit_cap p.col_count widths p.constant_memory
    else apply_column_widths p.col_count widths
  | none => if p.autofit && !p.constant_memory then [.autofit] else []

/-- Row-height step (convert.rs lines 726-735). -/
def featureStepRowHeights (p : FeatureParams) : List FeatureOp :=
  match p.row_heights with
  | none => []
  | some heights =>
    if !p.constant_memory then heights.map (fun rh => .setRowHeight rh.1 rh.2) else []

/-- Merged-range step (convert.rs lines 737-742). -/
def featureStepMerged (p : FeatureParams) (opts : ExtractedOptions) :
    Except Str (List FeatureOp) :=
  match opts.merged_ranges with
  | none => .ok []
  | some ranges =>
    if !p.constant_memory && ranges ≠ [] then apply_merged_ranges ranges else .ok []

/-- Hyperlink step (convert.rs lines 744-749). -/
def featureStepHyperlinks (p : FeatureParams) (opts : ExtractedOptions) :
    Except Str (List FeatureOp) :=
  match opts.hyperlinks with
  | none => .ok []
  | some links =>
    if !p.constant_memory && links ≠ [] then apply_hyperlinks links else .ok []

/-- Comment/note step (convert.rs lines 751-756). -/
def featureStepComments (p : FeatureParams) (opts : ExtractedOptions) :
    Except Str (List FeatureOp) :=
  match opts.comments with
  | none => .ok []
  | some cmts =>
    if !p.constant_memory && cmts ≠ [] then apply_comments cmts else .ok []

/-- Validation step (convert.rs lines 758-767). -/
def featureStepValidations (p : FeatureParams) (opts : ExtractedOptions) :
    Except Str (List FeatureOp) :=
  match opts.validations with
  | none => .ok []
  | some vals =>
    if !p.constant_memory && p.row_count > 0 then
      let ds := if p.include_header then 1 else 0
      let de := p.row_idx - 1
      if de ≥ ds then apply_validations p.columns ds de vals else .ok []
    else .ok []

/-- Rich-text step (convert.rs lines 769-774). -/
def featureStepRichText (p : FeatureParams) (opts : ExtractedOptions) :
    Except Str (List FeatureOp) :=
  match opts.rich_text with
  | none => .ok []
  | some rt =>
    if !p.constant_memory && rt ≠ [] then apply_rich_text rt else .ok []

/-- Image step (convert.rs lines 776-781). -/
def featureStepImages (p : FeatureParams) (opts : ExtractedOptions) :
    Except Str (List FeatureOp) :=
  match opts.images with
  | none => .ok []
  | some imgs =>
    if !p.constant_memory && imgs ≠ [] then apply_images imgs else .ok []

/-- The whole post-data feature-application pipeline of
`convert_dataframe_to_xlsx` (convert.rs lines 642-781), in source order;
fallible steps propagate their error, aborting the conversion before the
workbook is saved. -/
def featureApplication (p : FeatureParams) (opts : ExtractedOptions) :
    Except Str (List FeatureOp) :=
  match featureStepTable p with
  | .error e => .error e
  | .ok o1 =>
    let o2 := featureStepFormulas p opts
    let o3 := featureStepCondFormats p opts
    let o4 := featureStepFreeze p
    let o5 := featureStepWidths p opts
    let o6 := featureStepRowHeights p
    match featureStepMerged p opts with
    | .error e => .error e
    | .ok o7 =>
      match featureStepHyperlinks p opts with
      | .error e => .error e
      | .ok o8 =>
        match featureStepComments p opts with
        | .error e => .error e
        | .ok o9 =>
          match featureStepValidations p opts with
          | .error e => .error e
          | .ok o10 =>
            match featureStepRichText p opts with
            | .error e => .error e
            | .ok o11 =>
              match featureStepImages p opts with
              | .error e => .error e
              | .ok o12 =>
                .ok (o1 ++ o2 ++ o3 ++ o4 ++ o5 ++ o6 ++ o7 ++ o8 ++ o9 ++ o10 ++ o11 ++ o12)

/-- Is a feature op one of the two kinds a constant-memory conversion can
still emit (formula-column writes and explicit column widths)? -/
def isFormulaOrWidthOp : FeatureOp → Bool
  | .formulaHeader _ _ => true
  | .formulaCell _ _ _ => true
  | .setColumnWidth _ _ => true
  | _ => false

/-! ### The per-sheet configuration merge (lib.rs `dfs_to_xlsx`, lines
2412-2445; `SheetConfig` from types.rs lines 125-143 as built by
`extract_sheet_info`, features.rs lines 20-228)

Format dictionaries are carried opaquely (ordered key/value association
lists); the merge never inspects them. -/

/-- A format dictionary, opaque to the merge. -/
abbrev FormatDict := List (Str × Str)

/-- `SheetConfig` (types.rs): every field optional. -/
structure SheetConfig where
  header : Option Bool := none
  autofit : Option Bool := none
  table_style : Option (Option Str) := none
  freeze_panes : Option Bool := none
  column_widths : Option (List (Str × Rat)) := none
  row_heights : Option (List (Nat × Rat)) := none
  table_name : Option Str := none
  header_format : Option FormatDict := none
  column_formats : Option (List (Str × FormatDict)) := none

/-- The global (function-argument) configuration of `dfs_to_xlsx` for the
fields the merge covers. -/
structure GlobalOptions where
  header : Bool
  autofit : Bool
  table_style : Option Str
  freeze_panes : Bool
  column_widths : Option (List (Str × Rat))
  row_heights : Option (List (Nat × Rat))
  table_name : Option Str
  header_format : Option FormatDict
  column_formats : Option (List (Str × FormatDict))

/-- The effective per-sheet settings. -/
structure EffectiveSettings where
  header : Bool
  autofit : Bool
  table_style : Option Str
  freeze_panes : Bool
  column_widths : Option (List (Str × Rat))
  row_heights : Option (List (Nat × Rat))
  table_name : Option Str
  header_format : Option FormatDict
  column_formats : Option (List (Str × FormatDict))

/-- The merge of lib.rs lines 2417-2445: each field resolves to the sheet
override when present (`unwrap_or` / `Option::or` / the explicit
`table_style` match), otherwise the global value. -/
def effectiveSettings (g : GlobalOptions) (s : SheetConfig) : EffectiveSettings :=
  { header := s.header.getD g.header
    autofit := s.autofit.getD g.autofit
    table_style :=
      match s.table_style with
      | some styleOpt => styleOpt
      | none => g.table_style
    freeze_panes := s.freeze_panes.getD g.freeze_panes
    column_widths := s.column_widths.or g.column_widths
    row_heights := s.row_heights.or g.row_heights
    table_name := s.table_name.or g.table_name
    header_format := s.header_format.or g.header_format
    column_formats := s.column_formats.or g.column_formats }

/-- Key lookup in a `Nat`-keyed association list (row heights). -/
def lookupNat {α : Type} (m : List (Nat × α)) (k : Nat) : Option α :=
  match m with
  | [] => none
  | (k', v) :: rest => if k' = k then some v else lookupNat rest k

/-! ### Canonical write traces (used to state the converter equivalence) -/

/-- The writes of one record at a given row, without the (dead) index
checks. -/
def rowWritesPure (rowIdx : Nat) (d : DateOrder) : Nat → List Str → List WsOp
  | _, [] => []
  | colIdx, v :: rest =>
    write_cell rowIdx colIdx (parse_value v d) :: rowWritesPure rowIdx d (colIdx + 1) rest

/-- The row-major write trace of a record list starting at a given row. -/
def flatWrites (d : DateOrder) : Nat → List (List Str) → List WsOp
  | _, [] => []
  | rowIdx, r :: rest => rowWritesPure rowIdx d 0 r ++ flatWrites d (rowIdx + 1) rest

/-! ## Theorems

Helper lemmas first, then one theorem per claim (with witnesses and
counterexamples as needed). -/

/-- Two strings with the same character data are equal. -/
theorem dataExt {a b : String} (h : a.data = b.data) : a = b := by
  cases a; cases b; exact congrArg String.mk h

/-- `String.mk` is the inverse of `String.data`. -/
theorem mk_data (s : String) : String.mk s.data = s := by
  cases s; rfl

/-- `dropWhile` is the identity when no element satisfies the predicate. -/
theorem dropWhile_eq_self_of_none {p : Char → Bool} :
    ∀ {l : List Char}, (∀ c ∈ l, p c = false) → l.dropWhile p = l := by
  intro l h
  induction l with
  | nil => rfl
  | cons a as ih =>
    have ha : p a = false := h a (List.mem_cons_self a as)
    simp [List.dropWhile_cons, ha]

/-- `trimChars` is the identity on whitespace-free lists. -/
theorem trimChars_eq_self {l : List Char} (h : ∀ c ∈ l, rustIsWhitespace c = false) :
    trimChars l = l := by
  unfold trimChars
  have h1 : l.dropWhile rustIsWhitespace = l := dropWhile_eq_self_of_none h
  rw [h1]
  have h2 : l.reverse.dropWhile rustIsWhitespace = l.reverse :=
    dropWhile_eq_self_of_none fun c hc => h c (List.mem_reverse.mp hc)
  rw [h2, List.reverse_reverse]

/-- `rustTrim` is the identity on whitespace-free strings. -/
theorem rustTrim_eq_self {s : String} (h : ∀ c ∈ s.data, rustIsWhitespace c = false) :
    rustTrim s = s := by
  unfold rustTrim
  rw [trimChars_eq_self h, mk_data]

/-- `natDigitsAux` is a correct base-10 expansion whenever the fuel
suffices. -/
theorem ofDigitsLE_natDigitsAux : ∀ fuel n, n ≤ fuel → ofDigitsLE (natDigitsAux fuel n) = n := by
  intro fuel
  induction fuel with
  | zero =>
    intro n h
    have : n = 0 := Nat.le_zero.mp h
    subst this
    rfl
  | succ f ih =>
    intro n h
    by_cases h0 : n = 0
    · subst h0; simp [natDigitsAux, ofDigitsLE]
    · have hd : n / 10 ≤ f := by
        have hlt : n / 10 < n := Nat.div_lt_self (Nat.pos_of_ne_zero h0) (by norm_num)
        omega
      simp only [natDigitsAux, h0, if_false, ofDigitsLE, ih _ hd]
      omega

/-- Every digit produced by `natDigitsAux` is below 10. -/
theorem natDigitsAux_lt_ten : ∀ fuel n d, d ∈ natDigitsAux fuel n → d < 10 := by
  intro fuel
  induction fuel with
  | zero => intro n d hd; simp [natDigitsAux] at hd
  | succ f ih =>
    intro n d hd
    by_cases h0 : n = 0
    · subst h0; simp [natDigitsAux] at hd
    · simp only [natDigitsAux, h0, if_false, List.mem_cons] at hd
      rcases hd with hd | hd
      · subst hd; exact Nat.mod_lt _ (by norm_num)
      · exact ih _ _ hd

/-- `natDigits` of a positive number is nonempty. -/
theorem natDigits_ne_nil {n : Nat} (h : n ≠ 0) : natDigits n ≠ [] := by
  unfold natDigits
  cases n with
  | zero => exact absurd rfl h
  | succ m => simp [natDigitsAux, Nat.succ_ne_zero]

/-- `natOfDigits` over a snoc. -/
theorem natOfDigits_append (l : List Char) (c : Char) :
    natOfDigits (l ++ [c]) = natOfDigits l * 10 + digitVal c := by
  simp [natOfDigits, List.foldl_append]

/-- `digitVal` inverts `digitChar` below 10. -/
theorem digitVal_digitChar {d : Nat} (h : d < 10) : digitVal (digitChar d) = d := by
  interval_cases d <;> rfl

/-- `digitChar` produces digit characters. -/
theorem isDigitChar_digitChar {d : Nat} (h : d < 10) : isDigitChar (digitChar d) = true := by
  interval_cases d <;> rfl

/-- Digit characters are not whitespace. -/
theorem digitChar_not_ws {d : Nat} (h : d < 10) : rustIsWhitespace (digitChar d) = false := by
  interval_cases d <;> rfl

/-- Digit characters are not sign characters. -/
theorem digitChar_ne_sign {d : Nat} (h : d < 10) : digitChar d ≠ '+' ∧ digitChar d ≠ '-' := by
  interval_cases d <;> exact ⟨by decide, by decide⟩

/-- Reading back a reversed digit-character list. -/
theorem natOfDigits_rev_map {ds : List Nat} (h : ∀ d ∈ ds, d < 10) :
    natOfDigits (ds.reverse.map digitChar) = ofDigitsLE ds := by
  induction ds with
  | nil => rfl
  | cons d rest ih =>
    have hd : d < 10 := h d (List.mem_cons_self d rest)
    simp only [List.reverse_cons, List.map_append, List.map_cons, List.map_nil]
    rw [natOfDigits_append]
    rw [ih fun x hx => h x (List.mem_cons_of_mem d hx)]
    rw [digitVal_digitChar hd]
    simp [ofDigitsLE]
    ring

/-- The decimal printer and the digit reader round-trip. -/
theorem natOfDigits_natToDecString (n : Nat) : natOfDigits (natToDecString n).data = n := by
  by_cases h : n = 0
  · subst h; rfl
  · unfold natToDecString
    simp only [h, if_false]
    show natOfDigits ((natDigitsAux n n).reverse.map digitChar) = n
    rw [natOfDigits_rev_map fun d hd => natDigitsAux_lt_ten n n d hd]
    exact ofDigitsLE_natDigitsAux n n le_rfl

/-- Every character of `natToDecString` is a digit. -/
theorem natToDecString_all_digits (n : Nat) : ∀ c ∈ (natToDecString n).data, isDigitChar c = true := by
  intro c hc
  unfold natToDecString at hc
  by_cases h : n = 0
  · simp only [h, if_true] at hc
    have : c = '0' := by simpa using hc
    subst this; rfl
  · simp only [h, if_false] at hc
    have hc' : c ∈ (natDigits n).reverse.map digitChar := hc
    obtain ⟨d, hd, rfl⟩ := List.mem_map.mp hc'
    exact isDigitChar_digitChar (natDigitsAux_lt_ten n n d (List.mem_reverse.mp hd))

/-- `natToDecString` is never empty. -/
theorem natToDecString_ne_nil (n : Nat) : (natToDecString n).data ≠ [] := by
  unfold natToDecString
  by_cases h : n = 0
  · simp [h]
  · simp only [h, if_false]
    show (natDigits n).reverse.map digitChar ≠ []
    simp [natDigits_ne_nil h]

/-- `parseI64Chars` accepts an unsigned all-digit list within range. -/
theorem parseI64Chars_digits {cs : List Char} {n : Nat}
    (hne : cs ≠ []) (hall : cs.all isDigitChar = true)
    (hval : natOfDigits cs = n) (hrange : (n : Int) ≤ 2 ^ 63 - 1) :
    parseI64Chars cs = some (n : Int) := by
  cases cs with
  | nil => exact absurd rfl hne
  | cons c rest =>
    have hc : isDigitChar c = true :=
      List.all_eq_true.mp hall c (List.mem_cons_self c rest)
    have hplus : ¬ c = '+' := by rintro rfl; exact absurd hc (by decide)
    have hminus : ¬ c = '-' := by rintro rfl; exact absurd hc (by decide)
    have hge : (0 : Int) ≤ (n : Int) := Int.natCast_nonneg n
    simp only [parseI64Chars]
    simp [hplus, hminus, hval, hall]
    omega

/-- `parseI64Chars` accepts a minus sign before an all-digit list within
range. -/
theorem parseI64Chars_neg_digits {cs : List Char} {n : Nat}
    (hne : cs ≠ []) (hall : cs.all isDigitChar = true)
    (hval : natOfDigits cs = n) (hrange : -(2 : Int) ^ 63 ≤ -(n : Int)) :
    parseI64Chars ('-' :: cs) = some (-(n : Int)) := by
  have hge : (0 : Int) ≤ (n : Int) := Int.natCast_nonneg n
  simp only [parseI64Chars]
  simp [hne, hall, hval]
  omega

/-- The decimal string of any in-range i64 parses back to itself. -/
theorem parseI64_intToDecString {v : Int}
    (h1 : -(2 : Int) ^ 63 ≤ v) (h2 : v ≤ 2 ^ 63 - 1) :
    parseI64 (intToDecString v) = some v := by
  unfold parseI64 intToDecString
  have hallL : ((natToDecString v.natAbs).data).all isDigitChar = true :=
    List.all_eq_true.mpr fun c hc => natToDecString_all_digits v.natAbs c hc
  by_cases hv : v < 0
  · simp only [hv, if_true]
    have hdata : ("-" ++ natToDecString v.natAbs).data
        = '-' :: (natToDecString v.natAbs).data := by
      rw [String.data_append]; rfl
    rw [hdata]
    rw [parseI64Chars_neg_digits (natToDecString_ne_nil _) hallL
      (natOfDigits_natToDecString _) (by omega)]
    congr 1
    omega
  · simp only [hv, if_false]
    rw [parseI64Chars_digits (natToDecString_ne_nil _) hallL
      (natOfDigits_natToDecString _) (by omega)]
    congr 1
    omega

/-- Every character of the decimal string of an integer is a digit or the
minus sign; in particular none is whitespace. -/
theorem intToDecString_not_ws (v : Int) :
    ∀ c ∈ (intToDecString v).data, rustIsWhitespace c = false := by
  intro c hc
  unfold intToDecString at hc
  have hdig : ∀ x ∈ (natToDecString v.natAbs).data, rustIsWhitespace x = false := by
    intro x hx
    have hd := natToDecString_all_digits v.natAbs x hx
    unfold isDigitChar at hd
    simp only [Bool.and_eq_true, decide_eq_true_eq] at hd
    have hxs : ¬ x = ' ' := by
      intro h
      subst h
      revert hd
      decide
    have h13 : ¬ x.toNat ≤ 13 := by omega
    unfold rustIsWhitespace
    simp [hxs, h13]
  by_cases hv : v < 0
  · simp only [hv, if_true] at hc
    rw [String.data_append] at hc
    rcases List.mem_append.mp hc with hm | hm
    · have : c = '-' := by simpa using hm
      subst this
      rfl
    · exact hdig c hm
  · simp only [hv, if_false] at hc
    exact hdig c hc

/-- The decimal string of an integer has nonempty data. -/
theorem intToDecString_data_ne_nil (v : Int) : (intToDecString v).data ≠ [] := by
  unfold intToDecString
  by_cases hv : v < 0
  · simp only [hv, if_true, String.data_append]
    simp
  · simp only [hv, if_false]
    exact natToDecString_ne_nil v.natAbs

/-- The decimal string of an integer is nonempty. -/
theorem intToDecString_ne_empty (v : Int) : intToDecString v ≠ "" := by
  intro h
  apply intToDecString_data_ne_nil v
  rw [h]

/-- `parse_value` returns `Integer v` whenever the trimmed input parses as
an i64 (the first successful attempt wins). -/
theorem parse_value_integer_of_parseI64 {s : String} {v : Int} (d : DateOrder)
    (h : parseI64 (rustTrim s) = some v) :
    parse_value s d = .Integer v := by
  have hne : ¬ (rustTrim s = "") := by
    intro he
    rw [he] at h
    simp [parseI64, parseI64Chars] at h
  simp only [parse_value, hne, if_false, h]

/-- Claim C1 (corrected): for every in-range 64-bit integer `v`, classify
of its decimal string is `Integer v` — including magnitudes above 2^53;
the demotion to String happens at the write step, where `write_cell`
emits the decimal string exactly when the (release-mode wrapping) absolute
value exceeds `MAX_SAFE_INT`, and the numeric value otherwise. -/
theorem c1_integer_round_trip_and_demotion (v : Int) (d : DateOrder) (row col : Nat)
    (h1 : -(2 : Int) ^ 63 ≤ v) (h2 : v ≤ 2 ^ 63 - 1) :
    parse_value (intToDecString v) d = .Integer v
    ∧ (MAX_SAFE_INT < |v| → v ≠ -(2 : Int) ^ 63 →
        write_cell row col (.Integer v) = .writeString row col (intToDecString v))
    ∧ (|v| ≤ MAX_SAFE_INT →
        write_cell row col (.Integer v) = .writeNumber row col (v : Rat)) := by
  refine ⟨?_, ?_, ?_⟩
  · have htrim : rustTrim (intToDecString v) = intToDecString v :=
      rustTrim_eq_self (intToDecString_not_ws v)
    apply parse_value_integer_of_parseI64
    rw [htrim]
    exact parseI64_intToDecString h1 h2
  · intro hbig hmin
    have habs : wrappingAbsI64 v = |v| := by
      unfold wrappingAbsI64
      rw [if_neg hmin]
    simp only [write_cell, habs, hbig, if_true]
  · intro hsmall
    have hmin : ¬ v = -(2 : Int) ^ 63 := by
      intro h
      subst h
      revert hsmall
      decide
    have habs : wrappingAbsI64 v = |v| := by
      unfold wrappingAbsI64
      rw [if_neg hmin]
    have hno : ¬ MAX_SAFE_INT < wrappingAbsI64 v := by
      rw [habs]
      omega
    simp only [write_cell, hno, if_false]

/-- Witness for C1: the theorem applied at 2^53 + 1 (classified as an
Integer, demoted to a string write) with every hypothesis discharged. -/
theorem c1_integer_round_trip_and_demotion_witness :
    parse_value (intToDecString 9007199254740993) DateOrder.Auto
      = .Integer 9007199254740993
    ∧ write_cell 2 3 (.Integer 9007199254740993)
      = .writeString 2 3 (intToDecString 9007199254740993) := by
  have h := c1_integer_round_trip_and_demotion 9007199254740993 DateOrder.Auto 2 3
    (by decide) (by decide)
  exact ⟨h.1, h.2.1 (by decide) (by decide)⟩

/-- Counterexample for C1 as stated: classify of the decimal string of
2^53 + 1 is `Integer (2^53 + 1)`, not `String` — the classifier never
demotes. -/
theorem c1_counterexample :
    parse_value "9007199254740993" DateOrder.Auto = .Integer 9007199254740993
    ∧ parse_value "9007199254740993" DateOrder.Auto
      ≠ .String "9007199254740993" := by
  constructor
  · decide
  · decide

/-- Claim C4 (confirmed): ISO patterns are tried before the
order-dependent ones for every `date_order`, so "2024-01-15" classifies to
the same Date serial (45306) in all three modes; the ambiguous
"01-02-2024" yields January 2, 2024 (serial 45293) under MDY, February 1,
2024 (serial 45323) under DMY, and Auto equals the DMY result, matching
the pattern priority ISO, then DMY, then MDY. -/
theorem c4_date_order_priority :
    (∀ d : DateOrder, parse_value "2024-01-15" d = .Date 45306)
    ∧ parse_value "01-02-2024" .MDY = .Date 45293
    ∧ parse_value "01-02-2024" .DMY = .Date 45323
    ∧ parse_value "01-02-2024" .Auto = parse_value "01-02-2024" .DMY
    ∧ naive_date_to_excel 2024 1 2 = 45293
    ∧ naive_date_to_excel 2024 2 1 = 45323
    ∧ DateOrder.patterns .Auto = DATE_PATTERNS_ISO ++ DATE_PATTERNS_DMY ++ DATE_PATTERNS_MDY
    ∧ DateOrder.patterns .DMY = DATE_PATTERNS_ISO ++ DATE_PATTERNS_DMY ++ DATE_PATTERNS_MDY
    ∧ DateOrder.patterns .MDY = DATE_PATTERNS_ISO ++ DATE_PATTERNS_MDY ++ DATE_PATTERNS_DMY := by
  refine ⟨fun d => ?_, by decide, by decide, by decide, by decide, by decide, rfl, rfl, rfl⟩
  cases d <;> decide

/-- Claim C10: evaluation of `parse_cell_ref` at the failing input
"ZZZZ1".  The column letters ZZZZ denote 0-based column 475253, far above
the u16 range, yet the fold wraps modulo 2^16 (release semantics; debug
builds panic) and the function returns `Ok((0, 16501))` instead of the
descriptive error the claim requires.  Well-formed small references and
the documented malformed shapes behave as claimed. -/
theorem c10_parse_cell_ref_overflow :
    parse_cell_ref "ZZZZ1" = .ok (0, 16501)
    ∧ (26 * 26 * 26 + 26 * 26 + 26 + 26 * 26 * 26 * 26) % 65536 - 1 = 16501
    ∧ parse_cell_ref "A1" = .ok (0, 0)
    ∧ parse_cell_ref "AA10" = .ok (9, 26)
    ∧ parse_cell_ref "" = .error "Empty cell reference"
    ∧ parse_cell_ref "123" = .error "Invalid cell reference \x27123\x27: no column letters"
    ∧ parse_cell_ref "A" = .error "Invalid cell reference \x27A\x27: no row number"
    ∧ parse_cell_ref "A0"
      = .error "Invalid cell reference \x27A0\x27: row number must be >= 1 (Excel rows are 1-based)"
    ∧ parse_cell_range "ZZZZ1:ZZZZ2" = .ok (0, 16501, 1, 16501) := by
  refine ⟨by decide, by decide, by decide, by decide, by decide, ?_, ?_, ?_, by decide⟩
  · decide
  · decide
  · decide

/-- `startsWithL` against a single character. -/
theorem startsWithL_single {l : List Char} {c : Char} :
    startsWithL l [c] = true ↔ ∃ t, l = c :: t := by
  cases l with
  | nil => simp [startsWithL]
  | cons a t =>
    simp [startsWithL]

/-- `endsWithL` against a single character. -/
theorem endsWithL_single {l : List Char} {c : Char} :
    endsWithL l [c] = true ↔ ∃ t, l = t ++ [c] := by
  unfold endsWithL
  simp only [List.reverse_cons, List.reverse_nil, List.nil_append]
  rw [startsWithL_single]
  constructor
  · rintro ⟨t, ht⟩
    refine ⟨t.reverse, ?_⟩
    have := congrArg List.reverse ht
    simpa using this
  · rintro ⟨t, rfl⟩
    exact ⟨t.reverse, by simp⟩

/-- `String.mk` equality against a string unfolds to data equality. -/
theorem mk_eq_iff {p : List Char} {s : String} : String.mk p = s ↔ p = s.data := by
  constructor
  · intro h
    rw [← h]
  · intro h
    rw [h, mk_data]

/-- The parse.rs `matches_pattern` implements exactly the four-way
wildcard semantics of the specification. -/
theorem matches_pattern_eq_spec (column_name pattern : String) :
    matches_pattern column_name pattern = matchesSpec column_name pattern := by
  obtain ⟨p⟩ := pattern
  by_cases hs : startsWithL p ['*'] = true
  · by_cases he : endsWithL p ['*'] = true
    · obtain ⟨t, hp⟩ := startsWithL_single.mp hs
      by_cases hlen : p.length ≤ 2
      · have hstar : p = ['*'] ∨ p = ['*', '*'] := by
          obtain ⟨u, hq⟩ := endsWithL_single.mp he
          subst hp
          cases t with
          | nil => exact Or.inl rfl
          | cons x xs =>
            cases xs with
            | nil =>
              right
              have hx : x = '*' := by
                have h2 := congrArg List.getLast? hq
                simpa using h2
              rw [hx]
            | cons y ys =>
              exfalso
              simp only [List.length_cons] at hlen
              omega
        have hspec : matchesSpec column_name (String.mk p) = true := by
          rcases hstar with h | h <;> subst h <;> simp [matchesSpec]
        have hmat : matches_pattern column_name (String.mk p) = true := by
          simp only [matches_pattern, hs, he]
          simp [hlen]
        rw [hspec, hmat]
      · have h1 : ¬ (String.mk p = "*") := by
          rw [mk_eq_iff]
          intro h
          rw [h] at hlen
          simp at hlen
        have h2 : ¬ (String.mk p = "**") := by
          rw [mk_eq_iff]
          intro h
          rw [h] at hlen
          simp at hlen
        simp only [matches_pattern, matchesSpec, hs, he, h1, h2]
        simp [hlen]
    · have he' : endsWithL p ['*'] = false := by
        cases h : endsWithL p ['*']
        · rfl
        · exact absurd h he
      have h1 : ¬ (String.mk p = "*") := by
        rw [mk_eq_iff]
        intro h
        subst h
        exact absurd he' (by decide)
      have h2 : ¬ (String.mk p = "**") := by
        rw [mk_eq_iff]
        intro h
        subst h
        exact absurd he' (by decide)
      simp only [matches_pattern, matchesSpec, hs, he', h1, h2]
      simp
  · have hs' : startsWithL p ['*'] = false := by
      cases h : startsWithL p ['*']
      · rfl
      · exact absurd h hs
    have h1 : ¬ (String.mk p = "*") := by
      rw [mk_eq_iff]
      intro h
      subst h
      exact absurd hs' (by decide)
    have h2 : ¬ (String.mk p = "**") := by
      rw [mk_eq_iff]
      intro h
      subst h
      exact absurd hs' (by decide)
    by_cases he : endsWithL p ['*'] = true
    · simp only [matches_pattern, matchesSpec, hs', he, h1, h2]
      simp
    · have he' : endsWithL p ['*'] = false := by
        cases h : endsWithL p ['*']
        · rfl
        · exact absurd h he
      simp only [matches_pattern, matchesSpec, hs', he', h1, h2]
      simp

/-- Claim C2: the parse.rs `matches_pattern` satisfies exactly the claimed
four-way wildcard semantics (lone `*` and `**` match every column name,
both-wildcard patterns test substring containment, `*suffix` suffix,
`prefix*` prefix, otherwise exact equality), together with the claimed
examples — while the lib.rs duplicate, which lacks the lone-star guard,
slices `pattern[1..0]` on the lone pattern `*` and panics instead of
matching. -/
theorem c2_matches_pattern_spec_and_lib_panic :
    (∀ column_name pattern : String,
        matches_pattern column_name pattern = matchesSpec column_name pattern)
    ∧ (∀ column_name : String,
        matches_pattern column_name "*" = true ∧ matches_pattern column_name "**" = true)
    ∧ matches_pattern "price_usd" "price_*" = true
    ∧ matches_pattern "cost_usd" "price_*" = false
    ∧ matchesPatternLib "price_usd" "*" = .error "slice index starts at 1 but ends at 0"
    ∧ matchesPatternLib "price_usd" "**" = .ok true := by
  refine ⟨matches_pattern_eq_spec, fun c => ⟨rfl, rfl⟩, by decide, by decide, by decide, by decide⟩

/-- Claim C3 (confirmed): `parse_value` is a pure total Lean function (so
it never fails), and its cascade is exactly the claimed one — trim; Empty
on empty; i64; f64 with NaN/Infinity (including literal overflow) becoming
Empty; case-insensitive booleans; datetime patterns; date patterns;
default String of the trimmed input — with the first successful attempt
deciding, and with the claimed concrete values on "", "   ", "NaN", "inf"
and "-inf". -/
theorem c3_classifier_cascade :
    (∀ d : DateOrder,
        parse_value "" d = .Empty
        ∧ parse_value "   " d = .Empty
        ∧ parse_value "NaN" d = .Empty
        ∧ parse_value "inf" d = .Empty
        ∧ parse_value "-inf" d = .Empty)
    ∧ (∀ s : String, ∀ d : DateOrder, rustTrim s = "" → parse_value s d = .Empty)
    ∧ (∀ s : String, ∀ d : DateOrder, ∀ v : Int,
        parseI64 (rustTrim s) = some v → parse_value s d = .Integer v)
    ∧ (∀ s : String, ∀ d : DateOrder, ∀ q : Rat,
        rustTrim s ≠ "" → parseI64 (rustTrim s) = none →
        parseF64 (rustTrim s) = some (.finite q) → f64IsInfinite q = false →
        parse_value s d = .Float q)
    ∧ (∀ s : String, ∀ d : DateOrder, ∀ lit : FloatLit,
        rustTrim s ≠ "" → parseI64 (rustTrim s) = none →
        parseF64 (rustTrim s) = some lit →
        (lit = .nan ∨ (∃ b, lit = .inf b) ∨ (∃ q, lit = .finite q ∧ f64IsInfinite q = true)) →
        parse_value s d = .Empty)
    ∧ (∀ s : String, ∀ d : DateOrder,
        rustTrim s ≠ "" → parseI64 (rustTrim s) = none → parseF64 (rustTrim s) = none →
        eqIgnoreAsciiCase (rustTrim s) "true" = true → parse_value s d = .Boolean true)
    ∧ (∀ s : String, ∀ d : DateOrder,
        rustTrim s ≠ "" → parseI64 (rustTrim s) = none → parseF64 (rustTrim s) = none →
        eqIgnoreAsciiCase (rustTrim s) "true" = false →
        eqIgnoreAsciiCase (rustTrim s) "false" = true → parse_value s d = .Boolean false)
    ∧ (∀ s : String, ∀ d : DateOrder, ∀ q : Rat,
        rustTrim s ≠ "" → parseI64 (rustTrim s) = none → parseF64 (rustTrim s) = none →
        eqIgnoreAsciiCase (rustTrim s) "true" = false →
        eqIgnoreAsciiCase (rustTrim s) "false" = false →
        tryDateTimePatterns (rustTrim s).data = some q → parse_value s d = .DateTime q)
    ∧ (∀ s : String, ∀ d : DateOrder, ∀ n : Int,
        rustTrim s ≠ "" → parseI64 (rustTrim s) = none → parseF64 (rustTrim s) = none →
        eqIgnoreAsciiCase (rustTrim s) "true" = false →
        eqIgnoreAsciiCase (rustTrim s) "false" = false →
        tryDateTimePatterns (rustTrim s).data = none →
        tryDatePatterns d.patterns (rustTrim s).data = some n → parse_value s d = .Date n)
    ∧ (∀ s : String, ∀ d : DateOrder,
        rustTrim s ≠ "" → parseI64 (rustTrim s) = none → parseF64 (rustTrim s) = none →
        eqIgnoreAsciiCase (rustTrim s) "true" = false →
        eqIgnoreAsciiCase (rustTrim s) "false" = false →
        tryDateTimePatterns (rustTrim s).data = none →
        tryDatePatterns d.patterns (rustTrim s).data = none →
        parse_value s d = .String (rustTrim s)) := by
  refine ⟨?_, ?_, ?_, ?_, ?_, ?_, ?_, ?_, ?_, ?_⟩
  · intro d
    cases d <;> exact ⟨by decide, by decide, by decide, by decide, by decide⟩
  · intro s d h
    simp [parse_value, h]
  · intro s d v h
    have hne : ¬ (rustTrim s = "") := by
      intro he
      rw [he] at h
      simp [parseI64, parseI64Chars] at h
    simp [parse_value, hne, h]
  · intro s d q hne h64 hf hfin
    simp [parse_value, hne, h64, hf, hfin]
  · intro s d lit hne h64 hf hcase
    rcases hcase with rfl | ⟨b, rfl⟩ | ⟨q, rfl, hinf⟩
    · simp [parse_value, hne, h64, hf]
    · simp [parse_value, hne, h64, hf]
    · simp [parse_value, hne, h64, hf, hinf]
  · intro s d hne h64 hf ht
    simp [parse_value, hne, h64, hf, ht]
  · intro s d hne h64 hf ht hfalse
    simp [parse_value, hne, h64, hf, ht, hfalse]
  · intro s d q hne h64 hf ht hfalse hdt
    simp [parse_value, hne, h64, hf, ht, hfalse, hdt]
  · intro s d n hne h64 hf ht hfalse hdt hdate
    simp [parse_value, hne, h64, hf, ht, hfalse, hdt, hdate]
  · intro s d hne h64 hf ht hfalse hdt hdate
    simp [parse_value, hne, h64, hf, ht, hfalse, hdt, hdate]


/-- Witness for C3: the cascade theorem applied at concrete inputs — an
integer, a float, a boolean, a datetime, a date and a default-string case
— with every hypothesis discharged by evaluation. -/
theorem c3_classifier_cascade_witness :
    parse_value " 42 " DateOrder.Auto = .Integer 42
    ∧ parse_value "3.14" DateOrder.Auto
      = .Float (((3 : Nat) : Rat) + ((14 : Nat) : Rat) / (10 : Rat) ^ 2)
    ∧ parse_value "TRUE" DateOrder.Auto = .Boolean true
    ∧ parse_value "2024-01-15 10:30:00" DateOrder.Auto
      = .DateTime (naive_datetime_to_excel 2024 1 15 10 30 0)
    ∧ parse_value "15/01/2024" DateOrder.Auto = .Date 45306
    ∧ parse_value "hello" DateOrder.Auto = .String "hello" := by
  have h := c3_classifier_cascade
  refine ⟨h.2.2.1 " 42 " .Auto 42 (by decide), ?_, ?_, ?_, ?_, ?_⟩
  · refine h.2.2.2.1 "3.14" .Auto _ (by decide) (by decide) rfl ?_
    norm_num [f64IsInfinite]
    rw [abs_of_nonneg (by positivity)]
    norm_num
  · exact h.2.2.2.2.2.1 "TRUE" .Auto (by decide) (by decide) (by decide) (by decide)
  · exact h.2.2.2.2.2.2.2.1 "2024-01-15 10:30:00" .Auto _
      (by decide) (by decide) (by decide) (by decide) (by decide) rfl
  · exact h.2.2.2.2.2.2.2.2.1 "15/01/2024" .Auto 45306
      (by decide) (by decide) (by decide) (by decide) (by decide) (by decide) (by decide)
  · exact h.2.2.2.2.2.2.2.2.2 "hello" .Auto
      (by decide) (by decide) (by decide) (by decide) (by decide) (by decide) (by decide)

/-- Claim C6 (confirmed): for every configuration field the effective
per-sheet setting is the sheet override when present and the global value
otherwise, each field resolved independently (each clause depends only on
its own field); map-valued fields are replaced wholesale — after an
override, every key resolves against the override map alone, so global
entries never leak through. -/
theorem c6_config_merge :
    (∀ (g : GlobalOptions) (s : SheetConfig) (b : Bool),
        s.header = some b → (effectiveSettings g s).header = b)
    ∧ (∀ g s, s.header = none → (effectiveSettings g s).header = g.header)
    ∧ (∀ (g : GlobalOptions) (s : SheetConfig) (b : Bool),
        s.autofit = some b → (effectiveSettings g s).autofit = b)
    ∧ (∀ g s, s.autofit = none → (effectiveSettings g s).autofit = g.autofit)
    ∧ (∀ (g : GlobalOptions) (s : SheetConfig) (o : Option Str),
        s.table_style = some o → (effectiveSettings g s).table_style = o)
    ∧ (∀ g s, s.table_style = none → (effectiveSettings g s).table_style = g.table_style)
    ∧ (∀ (g : GlobalOptions) (s : SheetConfig) (b : Bool),
        s.freeze_panes = some b → (effectiveSettings g s).freeze_panes = b)
    ∧ (∀ g s, s.freeze_panes = none → (effectiveSettings g s).freeze_panes = g.freeze_panes)
    ∧ (∀ (g : GlobalOptions) (s : SheetConfig) m,
        s.column_widths = some m → (effectiveSettings g s).column_widths = some m)
    ∧ (∀ g s, s.column_widths = none →
        (effectiveSettings g s).column_widths = g.column_widths)
    ∧ (∀ (g : GlobalOptions) (s : SheetConfig) m,
        s.row_heights = some m → (effectiveSettings g s).row_heights = some m)
    ∧ (∀ g s, s.row_heights = none → (effectiveSettings g s).row_heights = g.row_heights)
    ∧ (∀ (g : GlobalOptions) (s : SheetConfig) (n : Str),
        s.table_name = some n → (effectiveSettings g s).table_name = some n)
    ∧ (∀ g s, s.table_name = none → (effectiveSettings g s).table_name = g.table_name)
    ∧ (∀ (g : GlobalOptions) (s : SheetConfig) (f : FormatDict),
        s.header_format = some f → (effectiveSettings g s).header_format = some f)
    ∧ (∀ g s, s.header_format = none →
        (effectiveSettings g s).header_format = g.header_format)
    ∧ (∀ (g : GlobalOptions) (s : SheetConfig) m,
        s.column_formats = some m → (effectiveSettings g s).column_formats = some m)
    ∧ (∀ g s, s.column_formats = none →
        (effectiveSettings g s).column_formats = g.column_formats)
    ∧ (∀ (g : GlobalOptions) (s : SheetConfig) m (k : Str),
        s.column_widths = some m →
        lookupStr ((effectiveSettings g s).column_widths.getD []) k = lookupStr m k)
    ∧ (∀ (g : GlobalOptions) (s : SheetConfig) m (k : Nat),
        s.row_heights = some m →
        lookupNat ((effectiveSettings g s).row_heights.getD []) k = lookupNat m k)
    ∧ (∀ (g : GlobalOptions) (s : SheetConfig) m (pat : Str),
        s.column_formats = some m →
        lookupStr ((effectiveSettings g s).column_formats.getD []) pat = lookupStr m pat) := by
  refine ⟨?_, ?_, ?_, ?_, ?_, ?_, ?_, ?_, ?_, ?_, ?_, ?_, ?_, ?_, ?_, ?_, ?_, ?_, ?_, ?_, ?_⟩
    <;> intro g s
  all_goals
    first
    | (intro x h; simp [effectiveSettings, h, Option.or])
    | (intro h; simp [effectiveSettings, h, Option.or])
    | (intro m k h; simp [effectiveSettings, h, Option.or])

/-- Witness for C6: a global map with a width for column 0 and a sheet
override with a width only for column 1 — the effective map is the
override alone, so column 0 resolves to nothing. -/
theorem c6_config_merge_witness :
    lookupStr
      ((effectiveSettings
        { header := true, autofit := false, table_style := none, freeze_panes := false,
          column_widths := some [("0", 10)], row_heights := none, table_name := none,
          header_format := none, column_formats := none }
        { column_widths := some [("1", 20)] }).column_widths.getD []) "0" = none := by
  rw [(c6_config_merge.2.2.2.2.2.2.2.2.2.2.2.2.2.2.2.2.2.2.1 : ∀ g s m k, _) _ _
    [("1", 20)] "0" rfl]
  rfl

/-- Everything contains the empty needle. -/
theorem containsL_nil (y : List Char) : containsL y [] = true := by
  cases y <;> simp [containsL, startsWithL]

/-- A prefix stays a prefix under right extension. -/
theorem startsWithL_append {n : List Char} :
    ∀ {l m : List Char}, startsWithL l n = true → startsWithL (l ++ m) n = true := by
  induction n with
  | nil => intro l m _; cases l <;> simp [startsWithL]
  | cons c ns ih =>
    intro l m h
    cases l with
    | nil => simp [startsWithL] at h
    | cons a ls =>
      simp only [startsWithL, Bool.and_eq_true] at h
      simp only [List.cons_append, startsWithL, Bool.and_eq_true]
      exact ⟨h.1, ih h.2⟩

/-- Containment in the right part of an append. -/
theorem containsL_append_right {x y n : List Char} (h : containsL y n = true) :
    containsL (x ++ y) n = true := by
  induction x with
  | nil => simpa using h
  | cons a x' ih =>
    simp only [List.cons_append, containsL, Bool.or_eq_true]
    exact Or.inr ih

/-- Containment in the left part of an append. -/
theorem containsL_append_left {n : List Char} :
    ∀ {x : List Char} (y : List Char), containsL x n = true → containsL (x ++ y) n = true := by
  intro x
  induction x with
  | nil =>
    intro y h
    simp only [containsL] at h
    rw [List.isEmpty_iff] at h
    subst h
    simpa using containsL_nil y
  | cons a x' ih =>
    intro y h
    simp only [containsL, Bool.or_eq_true] at h
    simp only [List.cons_append, containsL, Bool.or_eq_true]
    rcases h with h | h
    · exact Or.inl (startsWithL_append h)
    · exact Or.inr (ih y h)

/-- The oversized-list error message always names the 255-character
limit. -/
theorem listLimitMsg_names_255 (pat : Str) (total : Nat) :
    containsL (listLimitMsg pat total).data ['2', '5', '5'] = true := by
  unfold listLimitMsg
  rw [String.data_append, String.data_append, String.data_append, String.data_append]
  apply containsL_append_left
  apply containsL_append_left
  apply containsL_append_right
  decide

/-- `applyValidationCols` on a list validation within the length cap
registers once per matched column. -/
theorem applyValidationCols_list_ok {pat : Str} {values : List Str} {ds de : Nat}
    (hsmall : totalListChars values ≤ 255) :
    ∀ cols : List Nat,
      applyValidationCols pat ⟨some "list", some values⟩ ds de "list" cols
        = .ok (cols.map fun c => .validation ds c de) := by
  intro cols
  have hnot : ¬ 255 < totalListChars values := by omega
  induction cols with
  | nil => rfl
  | cons c rest ih =>
    simp only [applyValidationCols, applyValidationForCol, hnot]
    simp only [ih, List.map_cons]
    rfl

/-- Claim C8 (amended): for a list validation whose pattern matches at
least one column, the conversion fails — with a message naming the
255-character limit and before any registration for that column — exactly
when the combined length (value byte lengths plus one comma between
adjacent values) exceeds 255; within the cap it registers once per matched
column. -/
theorem c8_list_validation_cap (columns : List Str) (pat : Str) (values : List Str)
    (ds de : Nat) (hmatch : matchedCols columns pat ≠ []) :
    (255 < totalListChars values →
      apply_validations columns ds de [(pat, ⟨some "list", some values⟩)]
        = .error (listLimitMsg pat (totalListChars values))
      ∧ containsL (listLimitMsg pat (totalListChars values)).data ['2', '5', '5'] = true)
    ∧ (totalListChars values ≤ 255 →
      apply_validations columns ds de [(pat, ⟨some "list", some values⟩)]
        = .ok ((matchedCols columns pat).map fun c => .validation ds c de)) := by
  constructor
  · intro hbig
    refine ⟨?_, listLimitMsg_names_255 _ _⟩
    cases hcols : matchedCols columns pat with
    | nil => exact absurd hcols hmatch
    | cons c rest =>
      simp only [apply_validations, hcols]
      simp only [applyValidationCols, applyValidationForCol, hbig]
      rfl
  · intro hsmall
    cases hcols : matchedCols columns pat with
    | nil => exact absurd hcols hmatch
    | cons c rest =>
      simp only [apply_validations, hcols]
      simp [applyValidationCols_list_ok hsmall (c :: rest)]

set_option maxRecDepth 4096 in
/-- Witness for C8: a two-value list validation (total 7 chars) on a
matching column registers; the theorem instantiated with every hypothesis
discharged. -/
theorem c8_list_validation_cap_witness :
    apply_validations ["price", "qty"] 1 3 [("price", ⟨some "list", some ["a", "bcdef"]⟩)]
      = .ok [.validation 1 0 3] := by
  have h := (c8_list_validation_cap ["price", "qty"] "price" ["a", "bcdef"] 1 3
    (by decide)).2 (by decide)
  simpa using h

set_option maxRecDepth 8192 in
/-- Counterexample for C8 as stated: an oversized list validation (300
chars) whose pattern matches no column is skipped entirely — the
conversion succeeds, so "exceeds 255 implies failure" does not hold
unconditionally. -/
theorem c8_counterexample :
    totalListChars [String.mk (List.replicate 300 'x')] = 300
    ∧ apply_validations ["a"] 1 1
        [("zzz", ⟨some "list", some [String.mk (List.replicate 300 'x')]⟩)] = .ok [] := by
  constructor
  · decide
  · decide

/-- Formula-cell runs consist of formula ops only. -/
theorem formulaCellsGo_all (colIdx : Nat) (template : Str) :
    ∀ fuel row, (formulaCellsGo colIdx template row fuel).all isFormulaOrWidthOp = true := by
  intro fuel
  induction fuel with
  | zero => intro row; rfl
  | succ f ih =>
    intro row
    simp only [formulaCellsGo, List.all_cons, Bool.and_eq_true]
    exact ⟨rfl, ih (row + 1)⟩

/-- `apply_formula_columns` emits formula ops only. -/
theorem apply_formula_columns_all :
    ∀ (formulas : List (Str × Str)) (startCol ds de : Nat),
      ((apply_formula_columns formulas startCol ds de).1).all isFormulaOrWidthOp = true := by
  intro formulas
  induction formulas with
  | nil => intro startCol ds de; rfl
  | cons f rest ih =>
    intro startCol ds de
    simp only [apply_formula_columns, List.all_append, List.all_cons, Bool.and_eq_true]
    exact ⟨⟨rfl, formulaCellsGo_all _ _ _ _⟩, ih (startCol + 1) ds de⟩

/-- `applyColumnWidthsGo` emits width ops only. -/
theorem applyColumnWidthsGo_all (widths : List (Str × Rat)) (gw : Option Rat) :
    ∀ fuel colIdx, (applyColumnWidthsGo widths gw colIdx fuel).all isFormulaOrWidthOp = true := by
  intro fuel
  induction fuel with
  | zero => intro colIdx; rfl
  | succ f ih =>
    intro colIdx
    simp only [applyColumnWidthsGo]
    cases lookupStr widths (natToDecString colIdx) with
    | some w =>
      simp only [List.singleton_append, List.all_cons, Bool.and_eq_true]
      exact ⟨rfl, ih (colIdx + 1)⟩
    | none =>
      cases gw with
      | some w =>
        simp only [List.singleton_append, List.all_cons, Bool.and_eq_true]
        exact ⟨rfl, ih (colIdx + 1)⟩
      | none =>
        simp only [List.nil_append]
        exact ih (colIdx + 1)

/-- In constant-memory mode every gated feature step is skipped. -/
theorem featureSteps_cm (p : FeatureParams) (opts : ExtractedOptions)
    (hcm : p.constant_memory = true) :
    featureStepTable p = .ok []
    ∧ featureStepCondFormats p opts = []
    ∧ featureStepFreeze p = []
    ∧ featureStepRowHeights p = []
    ∧ featureStepMerged p opts = .ok []
    ∧ featureStepHyperlinks p opts = .ok []
    ∧ featureStepComments p opts = .ok []
    ∧ featureStepValidations p opts = .ok []
    ∧ featureStepRichText p opts = .ok []
    ∧ featureStepImages p opts = .ok [] := by
  refine ⟨?_, ?_, ?_, ?_, ?_, ?_, ?_, ?_, ?_, ?_⟩
  · unfold featureStepTable
    cases p.table_style <;> simp [hcm]
  · unfold featureStepCondFormats
    cases opts.conditional_formats <;> simp [hcm]
  · unfold featureStepFreeze
    simp [hcm]
  · unfold featureStepRowHeights
    cases p.row_heights <;> simp [hcm]
  · unfold featureStepMerged
    cases opts.merged_ranges <;> simp [hcm]
  · unfold featureStepHyperlinks
    cases opts.hyperlinks <;> simp [hcm]
  · unfold featureStepComments
    cases opts.comments <;> simp [hcm]
  · unfold featureStepValidations
    cases opts.validations <;> simp [hcm]
  · unfold featureStepRichText
    cases opts.rich_text <;> simp [hcm]
  · unfold featureStepImages
    cases opts.images <;> simp [hcm]

/-- In constant-memory mode the width step degenerates to the ungated
`apply_column_widths`. -/
theorem featureStepWidths_cm (p : FeatureParams) (opts : ExtractedOptions)
    (hcm : p.constant_memory = true) :
    featureStepWidths p opts
      = (match opts.column_widths with
        | some widths => apply_column_widths p.col_count widths
        | none => []) := by
  unfold featureStepWidths
  cases opts.column_widths <;> simp [hcm]

/-- The formula step emits formula ops only. -/
theorem featureStepFormulas_all (p : FeatureParams) (opts : ExtractedOptions) :
    (featureStepFormulas p opts).all isFormulaOrWidthOp = true := by
  cases h : opts.formula_columns with
  | none => simp [featureStepFormulas, h]
  | some formulas =>
    simp only [featureStepFormulas, h]
    split
    · split <;> split <;> first
      | exact apply_formula_columns_all _ _ _ _
      | rfl
    · rfl

/-- Claim C5 (amended): in constant-memory mode the conversion cannot fail
on account of configured features, and every feature op it still emits is
a formula-column write or an explicit column width — tables, conditional
formats, freeze panes, autofit, row heights, merged ranges, hyperlinks,
notes, validations, rich text and images are all skipped silently. -/
theorem c5_constant_memory_skips (p : FeatureParams) (opts : ExtractedOptions)
    (hcm : p.constant_memory = true) :
    ∃ ops, featureApplication p opts = .ok ops ∧ ops.all isFormulaOrWidthOp = true := by
  obtain ⟨h1, h3, h4, h6, h7, h8, h9, h10, h11, h12⟩ := featureSteps_cm p opts hcm
  unfold featureApplication
  simp only [h1, h3, h4, h6, h7, h8, h9, h10, h11, h12, featureStepWidths_cm p opts hcm]
  refine ⟨_, rfl, ?_⟩
  simp only [List.all_append, List.append_nil, List.nil_append, Bool.and_eq_true]
  refine ⟨featureStepFormulas_all p opts, ?_⟩
  cases opts.column_widths with
  | none => rfl
  | some widths => exact applyColumnWidthsGo_all _ _ _ _

/-- Witness for C5 (amended): the theorem applied at a fully loaded
constant-memory configuration. -/
theorem c5_constant_memory_skips_witness :
    ∃ ops, featureApplication
      { constant_memory := true, include_header := true, autofit := true,
        freeze_panes := true, table_style := some "Medium9",
        row_heights := some [(1, 20)], columns := ["a"], data_start_row := 0,
        row_count := 1, row_idx := 2, col_count := 1 }
      { column_widths := some [("0", 15)],
        formula_columns := some [("total", "=A\x7brow\x7d")],
        conditional_formats := some ["a"], merged_ranges := some [("A1:B1", "t")],
        hyperlinks := some [("A1", "http://x")], comments := some [("A1", "c")],
        validations := some [("a", ⟨some "list", some ["x"]⟩)],
        rich_text := some ["A1"], images := some ["A1"] } = .ok ops
      ∧ ops.all isFormulaOrWidthOp = true :=
  c5_constant_memory_skips _ _ rfl

/-- Counterexample for C5 as stated: with a formula column and an explicit
column width configured, the constant-memory pipeline still emits feature
ops — the formula-column step and the plain column-width branch carry no
constant-memory gate — so the trace beyond header and data writes is not
empty. -/
theorem c5_counterexample :
    featureApplication
      { constant_memory := true, include_header := true, autofit := true,
        freeze_panes := true, table_style := some "Medium9",
        row_heights := some [(1, 20)], columns := ["a"], data_start_row := 0,
        row_count := 1, row_idx := 2, col_count := 1 }
      { column_widths := some [("0", 15)],
        formula_columns := some [("total", "=A\x7brow\x7d")],
        conditional_formats := some ["a"], merged_ranges := some [("A1:B1", "t")],
        hyperlinks := some [("A1", "http://x")], comments := some [("A1", "c")],
        validations := some [("a", ⟨some "list", some ["x"]⟩)],
        rich_text := some ["A1"], images := some ["A1"] }
      = .ok [.formulaHeader 1 "total", .formulaCell 1 1 "=A2", .setColumnWidth 0 15]
    ∧ [FeatureOp.formulaHeader 1 "total", .formulaCell 1 1 "=A2",
        .setColumnWidth 0 15] ≠ ([] : List FeatureOp) := by
  constructor
  · decide
  · decide

/-- Claim C9 (amended): the CLI accepts positional input/output paths plus
sheet-name and verbose flags only (no date-order flag exists in main.rs);
on success it prints `OK <rows> <cols>` with exit code 0 and on failure
`Error: <message>` with exit code 1 on the diagnostic stream; and each
cell goes through main.rs's own reduced inline cascade — empty, i64
(always written numerically, without the 2^53 demotion), f64 with NaN/Inf
becoming an empty string, case-insensitive booleans, else string — not
through the library's Value Classifier (no date or datetime recognition). -/
theorem c9_cli_surface (a : Args) :
    (∀ (ops : List WsOp) (rows cols : Nat),
        mainRun (.ok (ops, rows, cols))
          = (0, "OK " ++ natToDecString rows ++ " " ++ natToDecString cols))
    ∧ (∀ e : Str, mainRun (.error e) = (1, "Error: " ++ e))
    ∧ (∀ records : List (List Str),
        mainRun (.ok (mainConvert records))
          = (0, "OK " ++ natToDecString (mainConvert records).2.1
              ++ " " ++ natToDecString (mainConvert records).2.2))
    ∧ (∀ row col : Nat, write_value row col "" = .writeString row col "")
    ∧ (∀ (row col : Nat) (s : Str) (v : Int), s ≠ "" → parseI64 s = some v →
        write_value row col s = .writeNumber row col (v : Rat))
    ∧ (∀ (row col : Nat) (s : Str) (q : Rat), s ≠ "" → parseI64 s = none →
        parseF64 s = some (.finite q) → f64IsInfinite q = false →
        write_value row col s = .writeNumber row col q)
    ∧ (∀ (row col : Nat) (s : Str) (lit : FloatLit), s ≠ "" → parseI64 s = none →
        parseF64 s = some lit →
        (lit = .nan ∨ (∃ b, lit = .inf b) ∨ (∃ q, lit = .finite q ∧ f64IsInfinite q = true)) →
        write_value row col s = .writeString row col "")
    ∧ (∀ (row col : Nat) (s : Str), s ≠ "" → parseI64 s = none → parseF64 s = none →
        eqIgnoreAsciiCase s "true" = true → write_value row col s = .writeBoolean row col true)
    ∧ (∀ (row col : Nat) (s : Str), s ≠ "" → parseI64 s = none → parseF64 s = none →
        eqIgnoreAsciiCase s "true" = false → eqIgnoreAsciiCase s "false" = true →
        write_value row col s = .writeBoolean row col false)
    ∧ (∀ (row col : Nat) (s : Str), s ≠ "" → parseI64 s = none → parseF64 s = none →
        eqIgnoreAsciiCase s "true" = false → eqIgnoreAsciiCase s "false" = false →
        write_value row col s = .writeString row col s)
    ∧ a.sheet_name = a.sheet_name := by
  refine ⟨fun ops rows cols => rfl, fun e => rfl, fun records => rfl, fun row col => rfl,
    ?_, ?_, ?_, ?_, ?_, ?_, rfl⟩
  · intro row col s v hne h
    simp [write_value, hne, h]
  · intro row col s q hne h64 hf hfin
    simp [write_value, hne, h64, hf, hfin]
  · intro row col s lit hne h64 hf hcase
    rcases hcase with rfl | ⟨b, rfl⟩ | ⟨q, rfl, hinf⟩
    · simp [write_value, hne, h64, hf]
    · simp [write_value, hne, h64, hf]
    · simp [write_value, hne, h64, hf, hinf]
  · intro row col s hne h64 hf ht
    simp [write_value, hne, h64, hf, ht]
  · intro row col s hne h64 hf ht hfalse
    simp [write_value, hne, h64, hf, ht, hfalse]
  · intro row col s hne h64 hf ht hfalse
    simp [write_value, hne, h64, hf, ht, hfalse]

/-- Witness for C9 (amended): the theorem applied at concrete inputs —
success and failure run outputs, a numeric cell without demotion, and a
date-shaped string left as a plain string. -/
theorem c9_cli_surface_witness :
    mainRun (.ok ([], 2, 3)) = (0, "OK 2 3")
    ∧ mainRun (.error "boom") = (1, "Error: boom")
    ∧ write_value 0 0 "9007199254740993"
      = .writeNumber 0 0 ((9007199254740993 : Int) : Rat)
    ∧ write_value 0 1 "2024-01-15" = .writeString 0 1 "2024-01-15" := by
  have h := c9_cli_surface { input := "in.csv", output := "out.xlsx" }
  refine ⟨?_, ?_, ?_, ?_⟩
  · rw [h.1 [] 2 3]
    decide
  · rw [h.2.1 "boom"]
    decide
  · exact h.2.2.2.2.1 0 0 "9007199254740993" 9007199254740993 (by decide) (by decide)
  · exact h.2.2.2.2.2.2.2.2.2.1 0 1 "2024-01-15"
      (by decide) (by decide) (by decide) (by decide) (by decide)

/-- Counterexample for C9 as stated: main.rs's cell handling is not the
Value Classifier — a date-shaped cell is written as a plain string by the
CLI while the Value Classifier pipeline writes a formatted date serial —
and the Args surface of main.rs carries no date-order flag for any
classification to consume. -/
theorem c9_counterexample :
    write_value 0 0 "2024-01-15" = .writeString 0 0 "2024-01-15"
    ∧ write_cell 0 0 (parse_value "2024-01-15" DateOrder.Auto)
      = .writeNumberWithFormat 0 0 ((45306 : Int) : Rat) .dateFmt
    ∧ write_value 0 0 "2024-01-15" ≠ write_cell 0 0 (parse_value "2024-01-15" DateOrder.Auto)
    ∧ write_value 0 0 "9007199254740993" = .writeNumber 0 0 ((9007199254740993 : Int) : Rat)
    ∧ write_cell 0 0 (parse_value "9007199254740993" DateOrder.Auto)
      = .writeString 0 0 "9007199254740993" := by
  refine ⟨by decide, by decide, by decide, by decide, by decide⟩

/-- The per-cell u16 checks of the sequential converter are dead once the
record-level check passed: the record writes are the pure row writes. -/
theorem recordWritesGo_ok (d : DateOrder) (rowIdx : Nat) :
    ∀ (r : List Str) (ci : Nat), ci + r.length ≤ U16_MAX + 1 →
      recordWritesGo rowIdx d ci r = .ok (rowWritesPure rowIdx d ci r) := by
  intro r
  induction r with
  | nil => intro ci _; rfl
  | cons v rest ih =>
    intro ci hb
    have hci : ci ≤ U16_MAX := by
      simp only [List.length_cons] at hb
      omega
    have hr := ih (ci + 1) (by simp only [List.length_cons] at hb; omega)
    simp only [recordWritesGo, hci, if_true, hr, rowWritesPure]

/-- The per-cell u16 checks of the parallel write phase are dead below the
column bound: one parsed row writes exactly the pure row writes. -/
theorem writeRowGo_ok (d : DateOrder) (rowIdx : Nat) :
    ∀ (r : List Str) (ci : Nat), ci + r.length ≤ U16_MAX + 1 →
      writeRowGo rowIdx ci (r.map fun v => parse_value v d)
        = .ok (rowWritesPure rowIdx d ci r) := by
  intro r
  induction r with
  | nil => intro ci _; rfl
  | cons v rest ih =>
    intro ci hb
    have hci : ci ≤ U16_MAX := by
      simp only [List.length_cons] at hb
      omega
    have hr := ih (ci + 1) (by simp only [List.length_cons] at hb; omega)
    simp only [List.map_cons, writeRowGo, hci, if_true, hr, rowWritesPure]

/-- A fold of `max` over record lengths stays below a bound respected by
every record and the accumulator. -/
theorem foldl_max_le {B : Nat} :
    ∀ (rs : List (List Str)) (acc : Nat), (∀ r ∈ rs, r.length ≤ B) → acc ≤ B →
      rs.foldl (fun m r => max m r.length) acc ≤ B := by
  intro rs
  induction rs with
  | nil => intro acc _ hacc; exact hacc
  | cons r rest ih =>
    intro acc h hacc
    simp only [List.foldl_cons]
    exact ih (max acc r.length)
      (fun x hx => h x (List.mem_cons_of_mem r hx))
      (by
        have := h r (List.mem_cons_self r rest)
        omega)

/-- The sequential loop, fully characterized while the row counter stays
below the u32 wrap and every record fits the u16 column bound. -/
theorem convertCsvGo_ok (d : DateOrder) :
    ∀ (rs : List (List Str)) (rc cc : Nat) (ops : List WsOp),
      (∀ r ∈ rs, r.length ≤ U16_MAX) → rc + rs.length < U32_MOD →
      convertCsvGo d rs rc cc ops
        = .ok (ops ++ flatWrites d rc rs, rc + rs.length,
            rs.foldl (fun m r => max m r.length) cc) := by
  intro rs
  induction rs with
  | nil =>
    intro rc cc ops _ _
    simp [convertCsvGo, flatWrites]
  | cons r rest ih =>
    intro rc cc ops h hb
    have hr : r.length ≤ U16_MAX := h r (List.mem_cons_self r rest)
    have hrw := recordWritesGo_ok d rc r 0 (by omega)
    simp only [convertCsvGo, hr, if_true, hrw]
    have hmod : (rc + 1) % U32_MOD = rc + 1 := by
      apply Nat.mod_eq_of_lt
      simp only [List.length_cons] at hb
      omega
    rw [hmod]
    rw [ih (rc + 1) (max cc r.length) (ops ++ rowWritesPure rc d 0 r)
      (fun x hx => h x (List.mem_cons_of_mem r hx))
      (by simp only [List.length_cons] at hb; omega)]
    simp only [flatWrites, List.append_assoc, List.length_cons, List.foldl_cons]
    have : rc + 1 + rest.length = rc + (rest.length + 1) := by omega
    rw [this]

/-- The parallel write phase, fully characterized under the same bounds. -/
theorem writeParsedGo_ok (d : DateOrder) :
    ∀ (rs : List (List Str)) (ri : Nat),
      (∀ r ∈ rs, r.length ≤ U16_MAX) → ri + rs.length ≤ U32_MOD →
      writeParsedGo ri (rs.map fun r => r.map fun v => parse_value v d)
        = .ok (flatWrites d ri rs) := by
  intro rs
  induction rs with
  | nil => intro ri _ _; rfl
  | cons r rest ih =>
    intro ri h hb
    have hri : ri ≤ U32_MOD - 1 := by
      simp only [List.length_cons] at hb
      omega
    have hrow := writeRowGo_ok d ri r 0 (by
      have := h r (List.mem_cons_self r rest)
      omega)
    have hrest := ih (ri + 1)
      (fun x hx => h x (List.mem_cons_of_mem r hx))
      (by simp only [List.length_cons] at hb; omega)
    simp only [List.map_cons, writeParsedGo, hri, if_true, hrow, hrest, flatWrites]

/-- Claim C7 (confirmed): for every record list within the representable
bounds (fewer than 2^32 rows, every record at most 65535 columns — the
converters' own error bounds), the sequential streaming converter and the
bulk-parallel converter produce identical results: the same classified
value written at the same (row, column) position, and the same
(row count, column count) pair, the column count being the maximum record
length. -/
theorem c7_converters_equivalent (records : List (List Str)) (d : DateOrder)
    (hrows : records.length < 4294967296)
    (hcols : ∀ r ∈ records, r.length ≤ 65535) :
    convert_csv_to_xlsx records d = convert_csv_to_xlsx_parallel records d
    ∧ convert_csv_to_xlsx records d
      = .ok (flatWrites d 0 records, records.length, maxRecordLen records) := by
  have hcols' : ∀ r ∈ records, r.length ≤ U16_MAX := hcols
  have hseq : convert_csv_to_xlsx records d
      = .ok (flatWrites d 0 records, records.length, maxRecordLen records) := by
    unfold convert_csv_to_xlsx maxRecordLen
    rw [convertCsvGo_ok d records 0 0 [] hcols' (by unfold U32_MOD; omega)]
    simp
  have hpar : convert_csv_to_xlsx_parallel records d
      = .ok (flatWrites d 0 records, records.length, maxRecordLen records) := by
    unfold convert_csv_to_xlsx_parallel
    have hb : records.length ≤ U32_MOD - 1 := by
      unfold U32_MOD
      omega
    have hm : maxRecordLen records ≤ U16_MAX := foldl_max_le records 0 hcols' (Nat.zero_le _)
    rw [if_pos hb]
    rw [if_pos hm]
    simp only [writeParsedGo_ok d records 0 hcols' (by unfold U32_MOD; omega)]
  exact ⟨hseq.trans hpar.symm, hseq⟩

/-- Witness for C7: the converters agree on the specification's scenario
CSV (two records, three columns) with every hypothesis discharged. -/
theorem c7_converters_equivalent_witness :
    convert_csv_to_xlsx [["1", "2024-01-15", "true"], ["", "", ""]] DateOrder.Auto
      = convert_csv_to_xlsx_parallel [["1", "2024-01-15", "true"], ["", "", ""]] DateOrder.Auto
    ∧ convert_csv_to_xlsx [["1", "2024-01-15", "true"], ["", "", ""]] DateOrder.Auto
      = .ok (flatWrites DateOrder.Auto 0 [["1", "2024-01-15", "true"], ["", "", ""]], 2, 3) :=
  c7_converters_equivalent [["1", "2024-01-15", "true"], ["", "", ""]] DateOrder.Auto
    (by decide) (by decide)
